import Mathlib

/-!
Shallow embedding of the procedural city-growth core of
t-display-cityscreensaver (src/include/CitySim.h), together with proofs of
the specification's claims about it.

Modelling conventions:
* The ESP32 random source (esp_random) is modelled as an oracle
  f : Nat → Nat together with a cursor j : Nat; each call to esp_random()
  reads f j and advances the cursor, exactly in source order (including the
  short-circuit evaluations that skip a call).
* uint8_t grid cells and lives are Nat (every write is clamped by the code
  itself, so no wrap is reachable); the uint32_t step counter and schedule
  wrap modulo 2^32, which a long enough run can reach, so the wrap is kept;
  the uint16_t flat grid index computed in addIntensity wraps modulo 2^16 as
  in the source.
* int16_t coordinates and int8_t direction components are Int; the program
  keeps them tiny (inside the grid / in {-1,0,1}), far from their bounds.
* The agent array with its occupied count agentCount is the list of the
  occupied slots; agents[agentCount++] = a is an append, in-place update of
  slot i is List.set i.
* C for loops become folds or fuel-indexed recursions; the fuel given to the
  agent loop (length + 61) exceeds the largest possible number of
  iterations, since the index rises by one per iteration while the list can
  grow only while shorter than MAX_AGENTS = 60.
-/

/-- One walker: position, direction vector and remaining life
(struct Agent of CitySim.h). -/
structure Agent where
  x : Int
  y : Int
  dx : Int
  dy : Int
  life : Nat
  deriving Repr, DecidableEq

/-- The state held by class CitySim: dimensions, the intensity grid, the
occupied agent slots, the seed point, the step counter and the scheduled
bright-node step. -/
structure CitySim where
  W : Nat
  H : Nat
  grid : Nat → Nat
  agents : List Agent
  seedX : Int
  seedY : Int
  steps : Nat
  nextBrightNodeStep : Nat

namespace CitySim

/-- MAX_AGENTS of CitySim.h. -/
def MAX_AGENTS : Nat := 60

/-- Modulus of the uint32_t step counter. -/
def U32 : Nat := 4294967296

/-- Conversion of an int16_t value to uint16_t (two's complement). -/
def toU16 (z : Int) : Nat := (z % 65536).toNat

/-- Truncation of an int value into int16_t (two's complement wrap). -/
def toI16 (z : Int) : Int := (z + 32768) % 65536 - 32768

/-- Conversion of an int value to uint8_t. -/
def toU8 (z : Int) : Nat := (z % 256).toNat

/-- The Arduino constrain macro on int16_t values. -/
def constrain (v lo hi : Int) : Int := if v < lo then lo else if v > hi then hi else v

/-- dirs[d] for the table {{1,0},{-1,0},{0,1},{0,-1}} used by respawnAgent
and placeBrightNode; total in d, and called only with d = draw % 4. -/
def dirAt (d : Nat) : Int × Int :=
  if d = 0 then (1, 0) else if d = 1 then (-1, 0) else if d = 2 then (0, 1) else (0, -1)

/-- uint8_t get(uint16_t x, uint16_t y) const: grid[y * W + x]. -/
def get (s : CitySim) (x y : Int) : Nat := s.grid (toU16 y * s.W + toU16 x)

/-- void addIntensity(int16_t x, int16_t y, uint8_t amt): saturating add at
the uint16_t flat index (uint16_t)y * W + (uint16_t)x. -/
def addIntensity (s : CitySim) (x y : Int) (amt : Nat) : CitySim :=
  let idx := (toU16 y * s.W + toU16 x) % 65536
  let v := s.grid idx + amt
  { s with grid := fun i => if i = idx then (if 255 < v then 255 else v) else s.grid i }

/-- void decay(uint8_t amt): every cell i < W * H becomes
(v > amt) ? (v - amt) : 0. -/
def decay (s : CitySim) (amt : Nat) : CitySim :=
  { s with grid := fun i =>
      if i < s.W * s.H then (if amt < s.grid i then s.grid i - amt else 0) else s.grid i }

/-- The body of bloom's double loop for one offset (x, y) from the center:
skip cells outside the interior or outside the circle, otherwise add
uint8(strength - uint8(min<int16_t>(strength, d2 * 3))), where
d2 = x * x + y * y is stored in an int16_t (so both the stored d2 and the
d2 * 3 operand of the min wrap for large radii). -/
def bloomCell (s : CitySim) (cx cy : Int) (radius strength : Nat) (x y : Int) : CitySim :=
  let px := cx + x
  let py := cy + y
  if px < 1 ∨ (s.W : Int) - 1 ≤ px ∨ py < 1 ∨ (s.H : Int) - 1 ≤ py then s
  else
    let d2 := toI16 (x * x + y * y)
    if (radius : Int) * radius < d2 then s
    else addIntensity s px py
      (toU8 ((strength : Int) - (toU8 (min (strength : Int) (toI16 (d2 * 3))) : Int)))

/-- void bloom(int16_t cx, int16_t cy, uint8_t radius, uint8_t strength):
for y from -radius to radius, for x from -radius to radius, bloomCell. -/
def bloom (s : CitySim) (cx cy : Int) (radius strength : Nat) : CitySim :=
  (List.range (2 * radius + 1)).foldl (fun s1 (ky : Nat) =>
    (List.range (2 * radius + 1)).foldl (fun s2 (kx : Nat) =>
      bloomCell s2 cx cy radius strength ((kx : Int) - radius) ((ky : Int) - radius)) s1) s

/-- void addAgent(...): no-op at capacity, otherwise
agents[agentCount++] = Agent{x, y, dx, dy, life}. -/
def addAgent (s : CitySim) (x y dx dy : Int) (life : Nat) : CitySim :=
  if MAX_AGENTS ≤ s.agents.length then s
  else { s with agents := s.agents ++ [⟨x, y, dx, dy, life⟩] }

/-- The 15-try sampling loop of respawnAgent: each try draws
rx = 2 + r % (W - 4), ry = 2 + r % (H - 4) and keeps (rx, ry, v) when
v > bestVal and v < 200. -/
def respawnTries (f : Nat → Nat) (s : CitySim) :
    Nat → Nat → Int × Int × Nat → (Int × Int × Nat) × Nat
  | 0, j, best => (best, j)
  | t + 1, j, (bx, b_y, bv) =>
      let rx : Int := 2 + ((f j % (s.W - 4) : Nat) : Int)
      let ry : Int := 2 + ((f (j + 1) % (s.H - 4) : Nat) : Int)
      let v := get s rx ry
      respawnTries f s t (j + 2)
        (if bv < v ∧ v < 200 then (rx, ry, v) else (bx, b_y, bv))

/-- void respawnAgent(Agent &a): best of 15 biased samples (seed point when
none qualifies), a random direction from the dirs table, and life
200 + r % 55; returns the overwritten agent. -/
def respawnAgent (f : Nat → Nat) (s : CitySim) (j : Nat) : Agent × Nat :=
  let bt := respawnTries f s 15 j (s.seedX, s.seedY, 0)
  let dir := dirAt (f bt.2 % 4)
  (⟨bt.1.1, bt.1.2.1, dir.1, dir.2, 200 + f (bt.2 + 1) % 55⟩, bt.2 + 2)

/-- The 20-try sampling loop of placeBrightNode: keeps the sample with the
highest intensity (v > best, no upper bound). -/
def brightTries (f : Nat → Nat) (s : CitySim) :
    Nat → Nat → Int × Int × Nat → (Int × Int × Nat) × Nat
  | 0, j, best => (best, j)
  | t + 1, j, (bx, b_y, bv) =>
      let x : Int := 2 + ((f j % (s.W - 4) : Nat) : Int)
      let y : Int := 2 + ((f (j + 1) % (s.H - 4) : Nat) : Int)
      let v := get s x y
      brightTries f s t (j + 2) (if bv < v then (x, y, v) else (bx, b_y, bv))

/-- The spawn loop of placeBrightNode: up to 5 agents at positions within
±10 of the node, constrained to [2, W-3] × [2, H-3], stopping as soon as the
pool is full (the loop condition re-checks agentCount). -/
def brightSpawns (f : Nat → Nat) (nx ny : Int) : Nat → CitySim → Nat → CitySim × Nat
  | 0, s, j => (s, j)
  | n + 1, s, j =>
      if s.agents.length < MAX_AGENTS then
        let rx := constrain (nx + ((f j % 21 : Nat) : Int) - 10) 2 ((s.W : Int) - 3)
        let ry := constrain (ny + ((f (j + 1) % 21 : Nat) : Int) - 10) 2 ((s.H : Int) - 3)
        let dir := dirAt (f (j + 2) % 4)
        brightSpawns f nx ny n
          (addAgent s rx ry dir.1 dir.2 (200 + f (j + 3) % 55)) (j + 4)
      else (s, j)

/-- void placeBrightNode(): pick the most intense of 20 samples (seed point
fallback), stamp a dense core and a halo, and spawn up to 5 extra agents
around it. -/
def placeBrightNode (f : Nat → Nat) (s : CitySim) (j : Nat) : CitySim × Nat :=
  let bt := brightTries f s 20 j (s.seedX, s.seedY, 0)
  let s1 := bloom s bt.1.1 bt.1.2.1 10 220
  let s2 := bloom s1 bt.1.1 bt.1.2.1 18 90
  brightSpawns f bt.1.1 bt.1.2.1 5 s2 bt.2

/-- steps++ on the uint32_t counter. -/
def stepTick (s : CitySim) : CitySim := { s with steps := (s.steps + 1) % U32 }

/-- The bright-node block of step(): when steps has reached the schedule,
place the node and reschedule to steps + 600 + r % 1200. -/
def brightPhase (f : Nat → Nat) (s : CitySim) (j : Nat) : CitySim × Nat :=
  if s.nextBrightNodeStep ≤ s.steps then
    let pb := placeBrightNode f s j
    ({ pb.1 with nextBrightNodeStep := (pb.1.steps + 600 + f pb.2 % 1200) % U32 }, pb.2 + 1)
  else (s, j)

/-- The move-and-bounce block of the per-agent update: advance by the
direction, then either bounce (constrain into the interior, negate the
direction, life loses 30 floored at 0) or age (life loses 1 when nonzero). -/
def moveAndBounce (w h : Nat) (a : Agent) : Agent :=
  let ax := a.x + a.dx
  let ay := a.y + a.dy
  if ax < 1 ∨ (w : Int) - 1 ≤ ax ∨ ay < 1 ∨ (h : Int) - 1 ≤ ay then
    { a with x := constrain ax 1 ((w : Int) - 2), y := constrain ay 1 ((h : Int) - 2),
             dx := -a.dx, dy := -a.dy,
             life := if 30 < a.life then a.life - 30 else 0 }
  else
    { a with x := ax, y := ay, life := if a.life ≠ 0 then a.life - 1 else a.life }

/-- The lights line of the per-agent update: with chance 25 in 100, add
intensity 45 at the agent's cell (one draw is always consumed). -/
def lightsPhase (f : Nat → Nat) (s1 : CitySim) (a0 : Agent) (j : Nat) : CitySim :=
  if f j % 100 < 25 then addIntensity s1 a0.x a0.y 45 else s1

/-- The random-turn block of the per-agent update: draw r in [0, 1000);
r < 40 turns left ((dx, dy) becomes (-dy, dx)), r in [40, 80) turns right
((dy, -dx)), otherwise straight. -/
def turnPhase (f : Nat → Nat) (a0 : Agent) (j : Nat) : Agent :=
  let r := f j % 1000
  if r < 40 then { a0 with dx := -a0.dy, dy := a0.dx }
  else if r < 80 then { a0 with dx := a0.dy, dy := -a0.dx }
  else a0

/-- The branch block of the per-agent update: when the pool has room
(checked first, short-circuiting the draw) and a draw in [0, 1000) is < 30,
spawn a new agent at the current position turned left or right from the
current direction, with life 140 + r % 100. -/
def branchPhase (f : Nat → Nat) (s2 : CitySim) (a1 : Agent) (j3 : Nat) : CitySim × Nat :=
  if s2.agents.length < MAX_AGENTS then
    if f j3 % 1000 < 30 then
      let ndx := if f (j3 + 1) % 2 = 1 then -a1.dy else a1.dy
      let ndy := if ndx = -a1.dy then a1.dx else -a1.dx
      (addAgent s2 a1.x a1.y ndx ndy (140 + f (j3 + 2) % 100), j3 + 3)
    else (s2, j3 + 1)
  else (s2, j3)

/-- The death-respawn line of the per-agent update: when life reached 0
(checked first, short-circuiting the draw) and a draw in [0, 100) is < 15,
respawn the agent in place. -/
def deathPhase (f : Nat → Nat) (s3 : CitySim) (a2 : Agent) (j4 : Nat) : Agent × Nat :=
  if a2.life = 0 then
    if f j4 % 100 < 15 then respawnAgent f s3 (j4 + 1) else (a2, j4 + 1)
  else (a2, j4)

/-- One iteration of the agent loop of step(), for the agent in slot i:
road mark, chance of lights, random turn, chance of a branch spawn, move
with bounce, and a 15% in-place respawn on death.  Dormant agents
(life == 0) are skipped.  Random draws are consumed exactly as the source's
short-circuits do. -/
def agentUpdate (f : Nat → Nat) (s : CitySim) (i : Nat) (j : Nat) : CitySim × Nat :=
  match s.agents[i]? with
  | none => (s, j)
  | some a0 =>
    if a0.life = 0 then (s, j)
    else
      let s2 := lightsPhase f (addIntensity s a0.x a0.y 35) a0 j
      let a1 := turnPhase f a0 (j + 1)
      let bp := branchPhase f s2 a1 (j + 2)
      let dp := deathPhase f bp.1 (moveAndBounce s.W s.H a1) bp.2
      ({ bp.1 with agents := bp.1.agents.set i dp.1 }, dp.2)

/-- The agent loop of step(): index i runs while i < agentCount, and
agentCount is re-read each iteration, so agents spawned during the loop are
processed too.  The fuel strictly exceeds the possible iteration count. -/
def agentLoop (f : Nat → Nat) : Nat → Nat → CitySim → Nat → CitySim × Nat
  | 0, _, s, j => (s, j)
  | fuel + 1, i, s, j =>
      if i < s.agents.length then
        let p := agentUpdate f s i j
        agentLoop f fuel (i + 1) p.1 p.2
      else (s, j)

/-- The agent loop of step() started at index 0 with sufficient fuel. -/
def runAgents (f : Nat → Nat) (s : CitySim) (j : Nat) : CitySim × Nat :=
  agentLoop f (s.agents.length + 61) 0 s j

/-- The decay line of step(): decay(1) exactly when steps % 500 == 0. -/
def decayPhase (s : CitySim) : CitySim :=
  if s.steps % 500 = 0 then decay s 1 else s

/-- The active-agent count computed by step()'s safety net:
the number of occupied slots with life > 0. -/
def activeCount (s : CitySim) : Nat :=
  s.agents.countP (fun a => decide (0 < a.life))

/-- The forced-respawn loop of the safety net: while i < agentCount and
activeCount < 12, respawn slot i in place when dormant. -/
def maintLoop (f : Nat → Nat) : Nat → Nat → Nat → CitySim → Nat → CitySim × Nat
  | 0, _, _, s, j => (s, j)
  | fuel + 1, i, active, s, j =>
      if i < s.agents.length ∧ active < 12 then
        match s.agents[i]? with
        | none => (s, j)
        | some a =>
          if a.life = 0 then
            let rj := respawnAgent f s j
            maintLoop f fuel (i + 1) (active + 1) { s with agents := s.agents.set i rj.1 } rj.2
          else maintLoop f fuel (i + 1) active s j
      else (s, j)

/-- The safety net at the end of step(): when fewer than 8 agents are
active, respawn dormant agents until 12 are active or all slots scanned. -/
def maintain (f : Nat → Nat) (s : CitySim) (j : Nat) : CitySim × Nat :=
  let active := activeCount s
  if active < 8 then maintLoop f (s.agents.length + 1) 0 active s j
  else (s, j)

/-- step() up to but excluding the safety net: tick, bright-node check,
agent loop, slow decay. -/
def stepPre (f : Nat → Nat) (s : CitySim) (j : Nat) : CitySim × Nat :=
  let bp := brightPhase f (stepTick s) j
  let ra := runAgents f bp.1 bp.2
  (decayPhase ra.1, ra.2)

/-- void step(): one simulation tick. -/
def step (f : Nat → Nat) (s : CitySim) (j : Nat) : CitySim × Nat :=
  let p := stepPre f s j
  maintain f p.1 p.2

/-- void reset(): zero the grid, drop all agents, seed four walkers at the
center, stamp the initial downtown bloom, restart the clock and draw the
first bright-node schedule 400 + r % 600. -/
def reset (f : Nat → Nat) (s : CitySim) (j : Nat) : CitySim × Nat :=
  let sx : Int := (s.W / 2 : Nat)
  let sy : Int := (s.H / 2 : Nat)
  let s0 : CitySim := { s with grid := fun _ => 0, agents := [], seedX := sx, seedY := sy }
  let s1 := addAgent s0 sx sy 1 0 255
  let s2 := addAgent s1 sx sy 0 1 255
  let s3 := addAgent s2 sx sy (-1) 0 255
  let s4 := addAgent s3 sx sy 0 (-1) 255
  let s5 := bloom s4 sx sy 6 120
  ({ s5 with steps := 0, nextBrightNodeStep := 400 + f j % 600 }, j + 1)

/-- The field values the constructor starts from (the malloc'ed grid is
modelled zero-initialised; reset overwrites it before any read). -/
def initSim (w h : Nat) : CitySim :=
  ⟨w, h, fun _ => 0, [], 0, 0, 0, 0⟩

/-- CitySim(uint16_t w, uint16_t h): allocate and reset (allocation success
is the spec's stated precondition). -/
def mkCitySim (f : Nat → Nat) (w h : Nat) (j : Nat) : CitySim × Nat :=
  reset f (initSim w h) j

/-- n successive step() calls. -/
def runSteps (f : Nat → Nat) : Nat → CitySim → Nat → CitySim × Nat
  | 0, s, j => (s, j)
  | n + 1, s, j =>
      let p := step f s j
      runSteps f n p.1 p.2

/-- The playable interior of the grid: a one-cell margin on every edge. -/
def inInterior (w h : Nat) (x y : Int) : Prop :=
  1 ≤ x ∧ x ≤ (w : Int) - 2 ∧ 1 ≤ y ∧ y ≤ (h : Int) - 2

instance (w h : Nat) (x y : Int) : Decidable (inInterior w h x y) := by
  unfold inInterior; infer_instance

/-- A direction vector that is one of the four axis-aligned unit vectors. -/
def unitDir (dx dy : Int) : Prop :=
  (dx = 1 ∧ dy = 0) ∨ (dx = -1 ∧ dy = 0) ∨ (dx = 0 ∧ dy = 1) ∨ (dx = 0 ∧ dy = -1)

instance (dx dy : Int) : Decidable (unitDir dx dy) := by
  unfold unitDir; infer_instance

/-- Every occupied agent slot holds a position in the interior. -/
def AgentsInterior (s : CitySim) : Prop :=
  ∀ a ∈ s.agents, inInterior s.W s.H a.x a.y

/-- Every occupied agent slot holds an axis-aligned unit direction. -/
def AgentsUnitDir (s : CitySim) : Prop :=
  ∀ a ∈ s.agents, unitDir a.dx a.dy

/-- Every cell on the outermost one-cell border of the grid holds 0. -/
def BorderZero (s : CitySim) : Prop :=
  ∀ x y : Nat, x < s.W → y < s.H → (x = 0 ∨ x = s.W - 1 ∨ y = 0 ∨ y = s.H - 1) →
    s.grid (y * s.W + x) = 0

/-- Dimensions large enough for the seed point and the spawn ranges to lie
inside the grid, and small enough for the uint16_t flat index to be exact
(true of the deployed 240 × 135). -/
def GoodDims (s : CitySim) : Prop :=
  5 ≤ s.W ∧ 5 ≤ s.H ∧ s.W * s.H ≤ 65536

/-- The state invariant the engine maintains: good dimensions, seed point in
the interior, all agents in the interior with unit directions, a zero
border, and at most MAX_AGENTS occupied slots. -/
def GoodState (s : CitySim) : Prop :=
  GoodDims s ∧ inInterior s.W s.H s.seedX s.seedY ∧ AgentsInterior s ∧ AgentsUnitDir s
    ∧ BorderZero s ∧ s.agents.length ≤ MAX_AGENTS

/-- The t candidate points respawnAgent samples from cursor j onward, in
draw order (each try consumes one draw for x and one for y). -/
def respawnCandList (f : Nat → Nat) (s : CitySim) : Nat → Nat → List (Int × Int)
  | 0, _ => []
  | t + 1, j =>
      (2 + ((f j % (s.W - 4) : Nat) : Int), 2 + ((f (j + 1) % (s.H - 4) : Nat) : Int))
        :: respawnCandList f s t (j + 2)

/-- A respawn candidate qualifies when its cell is lit but not saturated:
intensity strictly between 0 and 200. -/
def qualifies (s : CitySim) (c : Int × Int) : Prop :=
  0 < get s c.1 c.2 ∧ get s c.1 c.2 < 200

/-! ### Basic lemmas about the embedded primitives -/

theorem toU16_natCast (x : Nat) : toU16 (x : Int) = x % 65536 := by
  unfold toU16
  omega

theorem toU16_natCast_of_lt {x : Nat} (h : x < 65536) : toU16 (x : Int) = x := by
  rw [toU16_natCast]
  omega

theorem constrain_bounds {v lo hi : Int} (h : lo ≤ hi) :
    lo ≤ constrain v lo hi ∧ constrain v lo hi ≤ hi := by
  unfold constrain
  split_ifs <;> omega

theorem dirAt_mem (d : Nat) :
    dirAt d = (1, 0) ∨ dirAt d = (-1, 0) ∨ dirAt d = (0, 1) ∨ dirAt d = (0, -1) := by
  unfold dirAt
  split_ifs <;> simp

@[simp] theorem addIntensity_W (s : CitySim) (x y : Int) (amt : Nat) :
    (addIntensity s x y amt).W = s.W := rfl

@[simp] theorem addIntensity_H (s : CitySim) (x y : Int) (amt : Nat) :
    (addIntensity s x y amt).H = s.H := rfl

@[simp] theorem addIntensity_agents (s : CitySim) (x y : Int) (amt : Nat) :
    (addIntensity s x y amt).agents = s.agents := rfl

@[simp] theorem addIntensity_seedX (s : CitySim) (x y : Int) (amt : Nat) :
    (addIntensity s x y amt).seedX = s.seedX := rfl

@[simp] theorem addIntensity_seedY (s : CitySim) (x y : Int) (amt : Nat) :
    (addIntensity s x y amt).seedY = s.seedY := rfl

@[simp] theorem addIntensity_steps (s : CitySim) (x y : Int) (amt : Nat) :
    (addIntensity s x y amt).steps = s.steps := rfl

@[simp] theorem addIntensity_next (s : CitySim) (x y : Int) (amt : Nat) :
    (addIntensity s x y amt).nextBrightNodeStep = s.nextBrightNodeStep := rfl

@[simp] theorem decay_W (s : CitySim) (amt : Nat) : (decay s amt).W = s.W := rfl

@[simp] theorem decay_H (s : CitySim) (amt : Nat) : (decay s amt).H = s.H := rfl

@[simp] theorem decay_agents (s : CitySim) (amt : Nat) : (decay s amt).agents = s.agents := rfl

@[simp] theorem decay_seedX (s : CitySim) (amt : Nat) : (decay s amt).seedX = s.seedX := rfl

@[simp] theorem decay_seedY (s : CitySim) (amt : Nat) : (decay s amt).seedY = s.seedY := rfl

@[simp] theorem decay_steps (s : CitySim) (amt : Nat) : (decay s amt).steps = s.steps := rfl

@[simp] theorem decay_next (s : CitySim) (amt : Nat) :
    (decay s amt).nextBrightNodeStep = s.nextBrightNodeStep := rfl

/-- bloomCell only rewrites the grid. -/
theorem bloomCell_gridOnly (s : CitySim) (cx cy : Int) (radius strength : Nat) (x y : Int) :
    ∃ g, bloomCell s cx cy radius strength x y = { s with grid := g } := by
  simp only [bloomCell]
  split_ifs
  · exact ⟨s.grid, rfl⟩
  · exact ⟨s.grid, rfl⟩
  · exact ⟨_, rfl⟩

/-- A fold whose steps only rewrite the grid only rewrites the grid. -/
theorem foldl_gridOnly {α : Type} (g : CitySim → α → CitySim)
    (hg : ∀ s a, ∃ gr, g s a = { s with grid := gr }) :
    ∀ (l : List α) (s : CitySim), ∃ gr, l.foldl g s = { s with grid := gr } := by
  intro l
  induction l with
  | nil => exact fun s => ⟨s.grid, rfl⟩
  | cons a l ih =>
      intro s
      obtain ⟨g1, h1⟩ := hg s a
      obtain ⟨g2, h2⟩ := ih (g s a)
      refine ⟨g2, ?_⟩
      rw [List.foldl_cons, h2, h1]

/-- bloom only rewrites the grid. -/
theorem bloom_gridOnly (s : CitySim) (cx cy : Int) (radius strength : Nat) :
    ∃ g, bloom s cx cy radius strength = { s with grid := g } := by
  unfold bloom
  exact foldl_gridOnly _ (fun s1 ky => foldl_gridOnly _
    (fun s2 kx => bloomCell_gridOnly s2 cx cy radius strength _ _) _ s1) _ s

@[simp] theorem bloom_W (s : CitySim) (cx cy : Int) (radius strength : Nat) :
    (bloom s cx cy radius strength).W = s.W := by
  obtain ⟨g, h⟩ := bloom_gridOnly s cx cy radius strength
  rw [h]

@[simp] theorem bloom_H (s : CitySim) (cx cy : Int) (radius strength : Nat) :
    (bloom s cx cy radius strength).H = s.H := by
  obtain ⟨g, h⟩ := bloom_gridOnly s cx cy radius strength
  rw [h]

@[simp] theorem bloom_agents (s : CitySim) (cx cy : Int) (radius strength : Nat) :
    (bloom s cx cy radius strength).agents = s.agents := by
  obtain ⟨g, h⟩ := bloom_gridOnly s cx cy radius strength
  rw [h]

@[simp] theorem bloom_seedX (s : CitySim) (cx cy : Int) (radius strength : Nat) :
    (bloom s cx cy radius strength).seedX = s.seedX := by
  obtain ⟨g, h⟩ := bloom_gridOnly s cx cy radius strength
  rw [h]

@[simp] theorem bloom_seedY (s : CitySim) (cx cy : Int) (radius strength : Nat) :
    (bloom s cx cy radius strength).seedY = s.seedY := by
  obtain ⟨g, h⟩ := bloom_gridOnly s cx cy radius strength
  rw [h]

@[simp] theorem bloom_steps (s : CitySim) (cx cy : Int) (radius strength : Nat) :
    (bloom s cx cy radius strength).steps = s.steps := by
  obtain ⟨g, h⟩ := bloom_gridOnly s cx cy radius strength
  rw [h]

@[simp] theorem bloom_next (s : CitySim) (cx cy : Int) (radius strength : Nat) :
    (bloom s cx cy radius strength).nextBrightNodeStep = s.nextBrightNodeStep := by
  obtain ⟨g, h⟩ := bloom_gridOnly s cx cy radius strength
  rw [h]

/-! ### Claim C1: saturating grid writes -/

/-- C1: for an in-range cell holding v, addIntensity(x, y, amount) sets the
cell to min(255, v + amount), and decay(amount) sets every cell holding v to
max(0, v - amount); neither operation wraps or leaves 0..255. -/
theorem claim_C1_grid_saturation (s : CitySim) (x y amt damt : Nat)
    (hx : x < s.W) (hy : y < s.H) (hWH : s.W * s.H ≤ 65536) :
    ((addIntensity s (x : Int) (y : Int) amt).grid (y * s.W + x)
        = min 255 (s.grid (y * s.W + x) + amt)
      ∧ (addIntensity s (x : Int) (y : Int) amt).grid (y * s.W + x) ≤ 255)
    ∧ (((decay s damt).grid (y * s.W + x) : Int)
        = max 0 ((s.grid (y * s.W + x) : Int) - (damt : Int))
      ∧ (decay s damt).grid (y * s.W + x) ≤ s.grid (y * s.W + x)) := by
  have hH1 : 1 ≤ s.H := by omega
  have hW1 : 1 ≤ s.W := by omega
  have hW65 : s.W ≤ 65536 := by
    calc s.W = s.W * 1 := by ring
    _ ≤ s.W * s.H := Nat.mul_le_mul_left _ hH1
    _ ≤ 65536 := hWH
  have hH65 : s.H ≤ 65536 := by
    calc s.H = 1 * s.H := by ring
    _ ≤ s.W * s.H := Nat.mul_le_mul_right _ hW1
    _ ≤ 65536 := hWH
  have hidx : y * s.W + x < s.W * s.H := by
    calc y * s.W + x < y * s.W + s.W := by omega
    _ = (y + 1) * s.W := by ring
    _ ≤ s.H * s.W := Nat.mul_le_mul_right _ (by omega)
    _ = s.W * s.H := Nat.mul_comm _ _
  have hxu : toU16 (x : Int) = x := toU16_natCast_of_lt (by omega)
  have hyu : toU16 (y : Int) = y := toU16_natCast_of_lt (by omega)
  refine ⟨⟨?_, ?_⟩, ?_, ?_⟩
  · simp only [addIntensity, hxu, hyu, Nat.mod_eq_of_lt (lt_of_lt_of_le hidx hWH),
      if_pos rfl]
    rw [Nat.min_def]
    split_ifs <;> omega
  · simp only [addIntensity, hxu, hyu, Nat.mod_eq_of_lt (lt_of_lt_of_le hidx hWH),
      if_pos rfl]
    split_ifs <;> omega
  · simp only [decay, if_pos hidx]
    split_ifs with hlt
    · push_cast [Nat.cast_sub (le_of_lt hlt)]
      omega
    · push_cast
      omega
  · simp only [decay, if_pos hidx]
    split_ifs <;> omega

/-- Witness for C1 at a concrete 5 × 5 grid holding 100 everywhere, at cell
(2, 3) with add amount 200 and decay amount 30. -/
theorem claim_C1_witness :
    ((2 : Nat) < 5 ∧ (3 : Nat) < 5 ∧ (5 : Nat) * 5 ≤ 65536) ∧
    (((addIntensity ⟨5, 5, fun _ => 100, [], 0, 0, 0, 0⟩ ((2 : Nat) : Int) ((3 : Nat) : Int) 200).grid
          (3 * 5 + 2)
        = min 255 ((fun _ => (100 : Nat)) (3 * 5 + 2) + 200)
      ∧ (addIntensity ⟨5, 5, fun _ => 100, [], 0, 0, 0, 0⟩ ((2 : Nat) : Int) ((3 : Nat) : Int) 200).grid
          (3 * 5 + 2) ≤ 255)
    ∧ (((decay ⟨5, 5, fun _ => 100, [], 0, 0, 0, 0⟩ 30).grid (3 * 5 + 2) : Int)
        = max 0 (((fun _ => (100 : Nat)) (3 * 5 + 2) : Int) - ((30 : Nat) : Int))
      ∧ (decay ⟨5, 5, fun _ => 100, [], 0, 0, 0, 0⟩ 30).grid (3 * 5 + 2)
          ≤ (fun _ => (100 : Nat)) (3 * 5 + 2))) :=
  ⟨⟨by decide, by decide, by decide⟩,
   claim_C1_grid_saturation ⟨5, 5, fun _ => 100, [], 0, 0, 0, 0⟩ 2 3 200 30
     (by decide) (by decide) (by decide)⟩

/-! ### Claim C3: reset postcondition -/

/-- C3: after reset() the occupied count is 4, all four agents sit at the
grid center (W/2, H/2) with life 255 and the four axis-aligned unit
directions, the step counter is 0, and the next bright-node step lies in
[400, 1000). -/
theorem claim_C3_reset_postcondition (f : Nat → Nat) (w h j : Nat) :
    ((mkCitySim f w h j).1).agents =
      [⟨((w / 2 : Nat) : Int), ((h / 2 : Nat) : Int), 1, 0, 255⟩,
       ⟨((w / 2 : Nat) : Int), ((h / 2 : Nat) : Int), 0, 1, 255⟩,
       ⟨((w / 2 : Nat) : Int), ((h / 2 : Nat) : Int), -1, 0, 255⟩,
       ⟨((w / 2 : Nat) : Int), ((h / 2 : Nat) : Int), 0, -1, 255⟩]
    ∧ ((mkCitySim f w h j).1).agents.length = 4
    ∧ ((mkCitySim f w h j).1).steps = 0
    ∧ 400 ≤ ((mkCitySim f w h j).1).nextBrightNodeStep
    ∧ ((mkCitySim f w h j).1).nextBrightNodeStep < 1000 := by
  have h600 : f j % 600 < 600 := Nat.mod_lt _ (by omega)
  simp [mkCitySim, reset, initSim, addAgent, MAX_AGENTS]
  omega

/-! ### Claim C8: boundary bounce -/

/-- C8: after the move, a position outside the interior [1, W-2] × [1, H-2]
is clamped back into it, the direction is negated and life drops by 30
(floored at 0); a position inside the interior instead ages life by 1 when
it is nonzero. -/
theorem claim_C8_boundary_bounce (w h : Nat) (a : Agent) (hw : 3 ≤ w) (hh : 3 ≤ h) :
    (¬ inInterior w h (a.x + a.dx) (a.y + a.dy) →
       (moveAndBounce w h a).x = constrain (a.x + a.dx) 1 ((w : Int) - 2)
       ∧ (moveAndBounce w h a).y = constrain (a.y + a.dy) 1 ((h : Int) - 2)
       ∧ inInterior w h (moveAndBounce w h a).x (moveAndBounce w h a).y
       ∧ (moveAndBounce w h a).dx = -a.dx ∧ (moveAndBounce w h a).dy = -a.dy
       ∧ ((moveAndBounce w h a).life : Int) = max 0 ((a.life : Int) - 30))
    ∧ (inInterior w h (a.x + a.dx) (a.y + a.dy) →
       (moveAndBounce w h a).x = a.x + a.dx ∧ (moveAndBounce w h a).y = a.y + a.dy
       ∧ (moveAndBounce w h a).dx = a.dx ∧ (moveAndBounce w h a).dy = a.dy
       ∧ (a.life ≠ 0 → (moveAndBounce w h a).life = a.life - 1)
       ∧ (a.life = 0 → (moveAndBounce w h a).life = 0)) := by
  have hw2 : (1 : Int) ≤ (w : Int) - 2 := by omega
  have hh2 : (1 : Int) ≤ (h : Int) - 2 := by omega
  by_cases hc : a.x + a.dx < 1 ∨ (w : Int) - 1 ≤ a.x + a.dx
      ∨ a.y + a.dy < 1 ∨ (h : Int) - 1 ≤ a.y + a.dy
  · have hni : ¬ inInterior w h (a.x + a.dx) (a.y + a.dy) := by
      simp only [inInterior]
      omega
    refine ⟨fun _ => ?_, fun hin => absurd hin hni⟩
    simp only [moveAndBounce, if_pos hc, inInterior]
    refine ⟨trivial, trivial, ⟨(constrain_bounds hw2).1, (constrain_bounds hw2).2,
      (constrain_bounds hh2).1, (constrain_bounds hh2).2⟩, trivial, trivial, ?_⟩
    split_ifs with h30 <;> push_cast <;> omega
  · have hin : inInterior w h (a.x + a.dx) (a.y + a.dy) := by
      simp only [inInterior]
      omega
    refine ⟨fun hni => absurd hin hni, fun _ => ?_⟩
    simp only [moveAndBounce, if_neg hc]
    refine ⟨trivial, trivial, trivial, trivial, fun hne => ?_, fun h0 => ?_⟩
    · simp only [if_pos hne]
    · simp [h0]

/-- Witness for C8 on a 5 × 5 grid with an agent at (4, 4) heading (1, 0):
the move leaves the interior, so the bounce branch applies. -/
theorem claim_C8_witness :
    ((3 : Nat) ≤ 5 ∧ (3 : Nat) ≤ 5) ∧
    ((¬ inInterior 5 5 ((4 : Int) + 1) ((4 : Int) + 0) →
       (moveAndBounce 5 5 ⟨4, 4, 1, 0, 100⟩).x = constrain ((4 : Int) + 1) 1 (((5 : Nat) : Int) - 2)
       ∧ (moveAndBounce 5 5 ⟨4, 4, 1, 0, 100⟩).y = constrain ((4 : Int) + 0) 1 (((5 : Nat) : Int) - 2)
       ∧ inInterior 5 5 (moveAndBounce 5 5 ⟨4, 4, 1, 0, 100⟩).x (moveAndBounce 5 5 ⟨4, 4, 1, 0, 100⟩).y
       ∧ (moveAndBounce 5 5 ⟨4, 4, 1, 0, 100⟩).dx = -(1 : Int)
       ∧ (moveAndBounce 5 5 ⟨4, 4, 1, 0, 100⟩).dy = -(0 : Int)
       ∧ ((moveAndBounce 5 5 ⟨4, 4, 1, 0, 100⟩).life : Int) = max 0 (((100 : Nat) : Int) - 30))
    ∧ (inInterior 5 5 ((4 : Int) + 1) ((4 : Int) + 0) →
       (moveAndBounce 5 5 ⟨4, 4, 1, 0, 100⟩).x = (4 : Int) + 1
       ∧ (moveAndBounce 5 5 ⟨4, 4, 1, 0, 100⟩).y = (4 : Int) + 0
       ∧ (moveAndBounce 5 5 ⟨4, 4, 1, 0, 100⟩).dx = (1 : Int)
       ∧ (moveAndBounce 5 5 ⟨4, 4, 1, 0, 100⟩).dy = (0 : Int)
       ∧ ((100 : Nat) ≠ 0 → (moveAndBounce 5 5 ⟨4, 4, 1, 0, 100⟩).life = 100 - 1)
       ∧ ((100 : Nat) = 0 → (moveAndBounce 5 5 ⟨4, 4, 1, 0, 100⟩).life = 0))) :=
  ⟨⟨by decide, by decide⟩,
   claim_C8_boundary_bounce 5 5 ⟨4, 4, 1, 0, 100⟩ (by decide) (by decide)⟩

/-! ### Frame lemmas and claim C7 -/

/-! ### Frame lemmas: fields each operation leaves unchanged -/

theorem addAgent_frame (s : CitySim) (x y dx dy : Int) (life : Nat) :
    (addAgent s x y dx dy life).W = s.W ∧ (addAgent s x y dx dy life).H = s.H
    ∧ (addAgent s x y dx dy life).seedX = s.seedX
    ∧ (addAgent s x y dx dy life).seedY = s.seedY
    ∧ (addAgent s x y dx dy life).steps = s.steps
    ∧ (addAgent s x y dx dy life).grid = s.grid := by
  unfold addAgent
  split_ifs <;> exact ⟨rfl, rfl, rfl, rfl, rfl, rfl⟩

theorem lightsPhase_frame (f : Nat → Nat) (s1 : CitySim) (a0 : Agent) (j : Nat) :
    (lightsPhase f s1 a0 j).W = s1.W ∧ (lightsPhase f s1 a0 j).H = s1.H
    ∧ (lightsPhase f s1 a0 j).seedX = s1.seedX ∧ (lightsPhase f s1 a0 j).seedY = s1.seedY
    ∧ (lightsPhase f s1 a0 j).steps = s1.steps
    ∧ (lightsPhase f s1 a0 j).agents = s1.agents := by
  unfold lightsPhase
  split_ifs <;> exact ⟨rfl, rfl, rfl, rfl, rfl, rfl⟩

theorem branchPhase_frame (f : Nat → Nat) (s2 : CitySim) (a1 : Agent) (j3 : Nat) :
    (branchPhase f s2 a1 j3).1.W = s2.W ∧ (branchPhase f s2 a1 j3).1.H = s2.H
    ∧ (branchPhase f s2 a1 j3).1.seedX = s2.seedX
    ∧ (branchPhase f s2 a1 j3).1.seedY = s2.seedY
    ∧ (branchPhase f s2 a1 j3).1.steps = s2.steps
    ∧ (branchPhase f s2 a1 j3).1.grid = s2.grid := by
  unfold branchPhase
  split_ifs <;>
    first
      | exact addAgent_frame _ _ _ _ _ _
      | exact ⟨rfl, rfl, rfl, rfl, rfl, rfl⟩

theorem agentUpdate_frame (f : Nat → Nat) (s : CitySim) (i j : Nat) :
    (agentUpdate f s i j).1.W = s.W ∧ (agentUpdate f s i j).1.H = s.H
    ∧ (agentUpdate f s i j).1.seedX = s.seedX ∧ (agentUpdate f s i j).1.seedY = s.seedY
    ∧ (agentUpdate f s i j).1.steps = s.steps := by
  rcases hgi : s.agents[i]? with _ | a0 <;> simp only [agentUpdate, hgi]
  · refine ⟨?_, ?_, ?_, ?_, ?_⟩ <;> trivial
  · split_ifs with h0
    · refine ⟨?_, ?_, ?_, ?_, ?_⟩ <;> trivial
    · obtain ⟨bW, bH, bsx, bsy, bst, bgr⟩ := branchPhase_frame f
        (lightsPhase f (addIntensity s a0.x a0.y 35) a0 j) (turnPhase f a0 (j + 1)) (j + 2)
      obtain ⟨lW, lH, lsx, lsy, lst, lag⟩ :=
        lightsPhase_frame f (addIntensity s a0.x a0.y 35) a0 j
      exact ⟨bW.trans (lW.trans rfl), bH.trans (lH.trans rfl), bsx.trans (lsx.trans rfl),
        bsy.trans (lsy.trans rfl), bst.trans (lst.trans rfl)⟩

theorem agentLoop_frame (f : Nat → Nat) :
    ∀ (fuel i : Nat) (s : CitySim) (j : Nat),
    (agentLoop f fuel i s j).1.W = s.W ∧ (agentLoop f fuel i s j).1.H = s.H
    ∧ (agentLoop f fuel i s j).1.seedX = s.seedX
    ∧ (agentLoop f fuel i s j).1.seedY = s.seedY
    ∧ (agentLoop f fuel i s j).1.steps = s.steps := by
  intro fuel
  induction fuel with
  | zero => exact fun i s j => ⟨rfl, rfl, rfl, rfl, rfl⟩
  | succ fuel ih =>
      intro i s j
      simp only [agentLoop]
      split_ifs with hi
      · obtain ⟨uW, uH, usx, usy, ust⟩ := agentUpdate_frame f s i j
        obtain ⟨W2, H2, sx2, sy2, st2⟩ :=
          ih (i + 1) (agentUpdate f s i j).1 (agentUpdate f s i j).2
        exact ⟨W2.trans uW, H2.trans uH, sx2.trans usx, sy2.trans usy, st2.trans ust⟩
      · exact ⟨rfl, rfl, rfl, rfl, rfl⟩

theorem runAgents_frame (f : Nat → Nat) (s : CitySim) (j : Nat) :
    (runAgents f s j).1.W = s.W ∧ (runAgents f s j).1.H = s.H
    ∧ (runAgents f s j).1.seedX = s.seedX ∧ (runAgents f s j).1.seedY = s.seedY
    ∧ (runAgents f s j).1.steps = s.steps :=
  agentLoop_frame f _ 0 s j

theorem decayPhase_frame (s : CitySim) :
    (decayPhase s).W = s.W ∧ (decayPhase s).H = s.H
    ∧ (decayPhase s).seedX = s.seedX ∧ (decayPhase s).seedY = s.seedY
    ∧ (decayPhase s).steps = s.steps ∧ (decayPhase s).agents = s.agents := by
  unfold decayPhase
  split_ifs <;> exact ⟨rfl, rfl, rfl, rfl, rfl, rfl⟩

theorem brightSpawns_frame (f : Nat → Nat) (nx ny : Int) :
    ∀ (n : Nat) (s : CitySim) (j : Nat),
    (brightSpawns f nx ny n s j).1.W = s.W ∧ (brightSpawns f nx ny n s j).1.H = s.H
    ∧ (brightSpawns f nx ny n s j).1.seedX = s.seedX
    ∧ (brightSpawns f nx ny n s j).1.seedY = s.seedY
    ∧ (brightSpawns f nx ny n s j).1.steps = s.steps
    ∧ (brightSpawns f nx ny n s j).1.grid = s.grid := by
  intro n
  induction n with
  | zero => exact fun s j => ⟨rfl, rfl, rfl, rfl, rfl, rfl⟩
  | succ n ih =>
      intro s j
      simp only [brightSpawns]
      split_ifs with hn
      · obtain ⟨aW, aH, asx, asy, ast, agr⟩ := addAgent_frame s
          (constrain (nx + ((f j % 21 : Nat) : Int) - 10) 2 ((s.W : Int) - 3))
          (constrain (ny + ((f (j + 1) % 21 : Nat) : Int) - 10) 2 ((s.H : Int) - 3))
          (dirAt (f (j + 2) % 4)).1 (dirAt (f (j + 2) % 4)).2 (200 + f (j + 3) % 55)
        obtain ⟨W2, H2, sx2, sy2, st2, gr2⟩ := ih (addAgent s _ _ _ _ _) (j + 4)
        exact ⟨W2.trans aW, H2.trans aH, sx2.trans asx, sy2.trans asy,
          st2.trans ast, gr2.trans agr⟩
      · exact ⟨rfl, rfl, rfl, rfl, rfl, rfl⟩

theorem placeBrightNode_frame (f : Nat → Nat) (s : CitySim) (j : Nat) :
    (placeBrightNode f s j).1.W = s.W ∧ (placeBrightNode f s j).1.H = s.H
    ∧ (placeBrightNode f s j).1.seedX = s.seedX
    ∧ (placeBrightNode f s j).1.seedY = s.seedY
    ∧ (placeBrightNode f s j).1.steps = s.steps := by
  unfold placeBrightNode
  refine ⟨(brightSpawns_frame f _ _ 5 _ _).1.trans ?_,
    (brightSpawns_frame f _ _ 5 _ _).2.1.trans ?_,
    (brightSpawns_frame f _ _ 5 _ _).2.2.1.trans ?_,
    (brightSpawns_frame f _ _ 5 _ _).2.2.2.1.trans ?_,
    (brightSpawns_frame f _ _ 5 _ _).2.2.2.2.1.trans ?_⟩ <;> simp

theorem brightPhase_frame (f : Nat → Nat) (s : CitySim) (j : Nat) :
    (brightPhase f s j).1.W = s.W ∧ (brightPhase f s j).1.H = s.H
    ∧ (brightPhase f s j).1.seedX = s.seedX ∧ (brightPhase f s j).1.seedY = s.seedY
    ∧ (brightPhase f s j).1.steps = s.steps := by
  unfold brightPhase
  split_ifs with hb
  · obtain ⟨pW, pH, psx, psy, pst⟩ := placeBrightNode_frame f s j
    exact ⟨pW, pH, psx, psy, pst⟩
  · exact ⟨rfl, rfl, rfl, rfl, rfl⟩

theorem maintLoop_frame (f : Nat → Nat) :
    ∀ (fuel i active : Nat) (s : CitySim) (j : Nat),
    (maintLoop f fuel i active s j).1.W = s.W ∧ (maintLoop f fuel i active s j).1.H = s.H
    ∧ (maintLoop f fuel i active s j).1.seedX = s.seedX
    ∧ (maintLoop f fuel i active s j).1.seedY = s.seedY
    ∧ (maintLoop f fuel i active s j).1.steps = s.steps
    ∧ (maintLoop f fuel i active s j).1.grid = s.grid
    ∧ (maintLoop f fuel i active s j).1.agents.length = s.agents.length := by
  intro fuel
  induction fuel with
  | zero => exact fun i active s j => ⟨rfl, rfl, rfl, rfl, rfl, rfl, rfl⟩
  | succ fuel ih =>
      intro i active s j
      simp only [maintLoop]
      split_ifs with hc
      · rcases hgi : s.agents[i]? with _ | a
        · exact ⟨rfl, rfl, rfl, rfl, rfl, rfl, rfl⟩
        · simp only [hgi]
          split_ifs with h0
          · obtain ⟨W2, H2, sx2, sy2, st2, gr2, len2⟩ := ih (i + 1) (active + 1)
              { s with agents := s.agents.set i (respawnAgent f s j).1 } (respawnAgent f s j).2
            refine ⟨W2, H2, sx2, sy2, st2, gr2, len2.trans ?_⟩
            simp [List.length_set]
          · exact ih (i + 1) active s j
      · exact ⟨rfl, rfl, rfl, rfl, rfl, rfl, rfl⟩

theorem maintain_frame (f : Nat → Nat) (s : CitySim) (j : Nat) :
    (maintain f s j).1.W = s.W ∧ (maintain f s j).1.H = s.H
    ∧ (maintain f s j).1.seedX = s.seedX ∧ (maintain f s j).1.seedY = s.seedY
    ∧ (maintain f s j).1.steps = s.steps ∧ (maintain f s j).1.grid = s.grid
    ∧ (maintain f s j).1.agents.length = s.agents.length := by
  simp only [maintain]
  split_ifs with hc
  · exact maintLoop_frame f _ 0 _ s j
  · exact ⟨rfl, rfl, rfl, rfl, rfl, rfl, rfl⟩

theorem stepPre_steps (f : Nat → Nat) (s : CitySim) (j : Nat) :
    (stepPre f s j).1.steps = (s.steps + 1) % U32 := by
  unfold stepPre
  obtain ⟨bW, bH, bsx, bsy, bst⟩ := brightPhase_frame f (stepTick s) j
  obtain ⟨rW, rH, rsx, rsy, rst⟩ := runAgents_frame f (brightPhase f (stepTick s) j).1
    (brightPhase f (stepTick s) j).2
  obtain ⟨dW, dH, dsx, dsy, dst, dag⟩ := decayPhase_frame
    (runAgents f (brightPhase f (stepTick s) j).1 (brightPhase f (stepTick s) j).2).1
  exact dst.trans (rst.trans bst)

theorem step_steps (f : Nat → Nat) (s : CitySim) (j : Nat) :
    (step f s j).1.steps = (s.steps + 1) % U32 := by
  unfold step
  obtain ⟨mW, mH, msx, msy, mst, mgr, mlen⟩ := maintain_frame f (stepPre f s j).1 (stepPre f s j).2
  exact mst.trans (stepPre_steps f s j)



/-- C7 (amended): provided the uint32_t counter does not wrap
(steps + 1 < 2^32), each step() call increments the step counter by exactly
one, and the global decay of magnitude 1 is applied within the step if and
only if the incremented counter is a multiple of 500 (equivalently, a
positive multiple, since the counter is then at least 1). -/
theorem claim_C7_clock_decay (f : Nat → Nat) (s : CitySim) (j : Nat)
    (hs : s.steps + 1 < U32) :
    (step f s j).1.steps = s.steps + 1
    ∧ (decayPhase (runAgents f (brightPhase f (stepTick s) j).1
          (brightPhase f (stepTick s) j).2).1
        = (if 500 ∣ (s.steps + 1) then
             decay (runAgents f (brightPhase f (stepTick s) j).1
               (brightPhase f (stepTick s) j).2).1 1
           else (runAgents f (brightPhase f (stepTick s) j).1
               (brightPhase f (stepTick s) j).2).1))
    ∧ (500 ∣ (s.steps + 1) ↔ ∃ k, 0 < k ∧ s.steps + 1 = 500 * k) := by
  have htick : (stepTick s).steps = s.steps + 1 := by
    simp only [stepTick]
    exact Nat.mod_eq_of_lt hs
  have hmid : (runAgents f (brightPhase f (stepTick s) j).1
      (brightPhase f (stepTick s) j).2).1.steps = s.steps + 1 := by
    obtain ⟨_, _, _, _, rst⟩ := runAgents_frame f (brightPhase f (stepTick s) j).1
      (brightPhase f (stepTick s) j).2
    obtain ⟨_, _, _, _, bst⟩ := brightPhase_frame f (stepTick s) j
    rw [rst, bst, htick]
  refine ⟨?_, ?_, ?_⟩
  · rw [step_steps, Nat.mod_eq_of_lt hs]
  · unfold decayPhase
    rw [hmid]
    by_cases hm : (s.steps + 1) % 500 = 0
    · rw [if_pos hm, if_pos (Nat.dvd_iff_mod_eq_zero.mpr hm)]
    · rw [if_neg hm, if_neg (fun hd => hm (Nat.dvd_iff_mod_eq_zero.mp hd))]
  · constructor
    · rintro ⟨k, hk⟩
      exact ⟨k, by omega, hk⟩
    · rintro ⟨k, hpos, heq⟩
      exact ⟨k, heq⟩

/-- Witness for C7 at a concrete empty-pool 5 × 5 state with counter 0. -/
theorem claim_C7_witness :
    ((0 : Nat) + 1 < U32) ∧
    ((step (fun _ => 0) ⟨5, 5, fun _ => 0, [], 2, 2, 0, 7⟩ 0).1.steps = 0 + 1
    ∧ (decayPhase (runAgents (fun _ => 0)
          (brightPhase (fun _ => 0) (stepTick ⟨5, 5, fun _ => 0, [], 2, 2, 0, 7⟩) 0).1
          (brightPhase (fun _ => 0) (stepTick ⟨5, 5, fun _ => 0, [], 2, 2, 0, 7⟩) 0).2).1
        = (if 500 ∣ ((0 : Nat) + 1) then
             decay (runAgents (fun _ => 0)
               (brightPhase (fun _ => 0) (stepTick ⟨5, 5, fun _ => 0, [], 2, 2, 0, 7⟩) 0).1
               (brightPhase (fun _ => 0) (stepTick ⟨5, 5, fun _ => 0, [], 2, 2, 0, 7⟩) 0).2).1 1
           else (runAgents (fun _ => 0)
               (brightPhase (fun _ => 0) (stepTick ⟨5, 5, fun _ => 0, [], 2, 2, 0, 7⟩) 0).1
               (brightPhase (fun _ => 0) (stepTick ⟨5, 5, fun _ => 0, [], 2, 2, 0, 7⟩) 0).2).1))
    ∧ (500 ∣ ((0 : Nat) + 1) ↔ ∃ k, 0 < k ∧ (0 : Nat) + 1 = 500 * k)) :=
  ⟨by decide, claim_C7_clock_decay (fun _ => 0) ⟨5, 5, fun _ => 0, [], 2, 2, 0, 7⟩ 0 (by decide)⟩

/-- C7 counterexample: from the reachable state whose uint32_t counter is
2^32 - 1 (empty pool, schedule far away, every cell at 5), one step() call
wraps the counter to 0 -- not an increment by one -- and still applies the
global decay (cell 0 drops from 5 to 4), although the incremented counter 0
is not a positive multiple of 500. -/
theorem claim_C7_counterexample :
    (step (fun _ => 0) ⟨5, 5, fun _ => 5, [], 2, 2, 4294967295, 10000000000⟩ 0).1.steps = 0
    ∧ ((step (fun _ => 0) ⟨5, 5, fun _ => 5, [], 2, 2, 4294967295, 10000000000⟩ 0).1.steps
        ≠ (4294967295 : Nat) + 1)
    ∧ (step (fun _ => 0) ⟨5, 5, fun _ => 5, [], 2, 2, 4294967295, 10000000000⟩ 0).1.grid 0 = 4
    ∧ (∀ k : Nat, ¬ (0 < k ∧ (0 : Nat) = 500 * k)) := by
  refine ⟨by rfl, ?_, by rfl, ?_⟩
  · intro hcontra
    rw [show (step (fun _ => 0) ⟨5, 5, fun _ => 5, [], 2, 2, 4294967295, 10000000000⟩ 0).1.steps
        = 0 from rfl] at hcontra
    omega
  · intro k
    omega

/-! ### Claim C5: respawnAgent postcondition -/

/-- One unfolding of the respawn sampling loop. -/
theorem respawnTries_succ (f : Nat → Nat) (s : CitySim) (t j : Nat) (bx b_y : Int) (bv : Nat) :
    respawnTries f s (t + 1) j (bx, b_y, bv)
      = respawnTries f s t (j + 2)
          (if bv < get s (2 + ((f j % (s.W - 4) : Nat) : Int))
                    (2 + ((f (j + 1) % (s.H - 4) : Nat) : Int))
              ∧ get s (2 + ((f j % (s.W - 4) : Nat) : Int))
                    (2 + ((f (j + 1) % (s.H - 4) : Nat) : Int)) < 200
           then (2 + ((f j % (s.W - 4) : Nat) : Int),
                 2 + ((f (j + 1) % (s.H - 4) : Nat) : Int),
                 get s (2 + ((f j % (s.W - 4) : Nat) : Int))
                      (2 + ((f (j + 1) % (s.H - 4) : Nat) : Int)))
           else (bx, b_y, bv)) := rfl

/-- One unfolding of the respawn candidate list. -/
theorem respawnCandList_succ (f : Nat → Nat) (s : CitySim) (t j : Nat) :
    respawnCandList f s (t + 1) j
      = (2 + ((f j % (s.W - 4) : Nat) : Int), 2 + ((f (j + 1) % (s.H - 4) : Nat) : Int))
          :: respawnCandList f s t (j + 2) := rfl

/-- The respawn sampling loop keeps the entry best (when no candidate beats
it) or returns a sampled candidate: lit below 200, beating the entry value,
and at least every candidate below 200. -/
theorem respawnTries_spec (f : Nat → Nat) (s : CitySim) :
    ∀ (t j : Nat) (bx b_y : Int) (bv : Nat) (p : (Int × Int × Nat) × Nat),
      p = respawnTries f s t j (bx, b_y, bv) →
      (bv = 0 ∨ (0 < bv ∧ bv < 200 ∧ bv = get s bx b_y)) →
      ((p.1.1 = bx ∧ p.1.2.1 = b_y ∧ p.1.2.2 = bv
          ∧ ∀ c ∈ respawnCandList f s t j, get s c.1 c.2 < 200 → get s c.1 c.2 ≤ bv)
       ∨ ((p.1.1, p.1.2.1) ∈ respawnCandList f s t j
          ∧ p.1.2.2 = get s p.1.1 p.1.2.1
          ∧ 0 < p.1.2.2 ∧ p.1.2.2 < 200 ∧ bv < p.1.2.2
          ∧ ∀ c ∈ respawnCandList f s t j, get s c.1 c.2 < 200 → get s c.1 c.2 ≤ p.1.2.2)) := by
  intro t
  induction t with
  | zero =>
      intro j bx b_y bv p hp hentry
      subst hp
      left
      refine ⟨rfl, rfl, rfl, ?_⟩
      intro c hc
      simp [respawnCandList] at hc
  | succ t ih =>
      intro j bx b_y bv p hp hentry
      rw [respawnTries_succ] at hp
      by_cases hupd : bv < get s (2 + ((f j % (s.W - 4) : Nat) : Int))
            (2 + ((f (j + 1) % (s.H - 4) : Nat) : Int))
          ∧ get s (2 + ((f j % (s.W - 4) : Nat) : Int))
            (2 + ((f (j + 1) % (s.H - 4) : Nat) : Int)) < 200
      · rw [if_pos hupd] at hp
        have hih := ih (j + 2) _ _ _ p hp
          (Or.inr ⟨Nat.lt_of_le_of_lt (Nat.zero_le bv) hupd.1, hupd.2, rfl⟩)
        rw [respawnCandList_succ]
        rcases hih with ⟨hx, hy, hv, hmax⟩ | ⟨hmem, hveq, hpos, hlt, hgt, hmax⟩
        · right
          refine ⟨?_, ?_, ?_, ?_, ?_, ?_⟩
          · rw [hx, hy]
            exact List.mem_cons_self _ _
          · rw [hx, hy, hv]
          · rw [hv]
            omega
          · rw [hv]
            exact hupd.2
          · rw [hv]
            exact hupd.1
          · intro c hc
            rw [hv]
            rcases List.mem_cons.mp hc with hc0 | hcr
            · subst hc0
              dsimp only
              intro hclt
              exact le_refl _
            · exact hmax c hcr
        · right
          refine ⟨List.mem_cons_of_mem _ hmem, hveq, hpos, hlt, by omega, ?_⟩
          intro c hc
          rcases List.mem_cons.mp hc with hc0 | hcr
          · subst hc0
            dsimp only
            intro hclt
            omega
          · exact hmax c hcr
      · rw [if_neg hupd] at hp
        have hih := ih (j + 2) bx b_y bv p hp hentry
        rw [respawnCandList_succ]
        have hno : get s (2 + ((f j % (s.W - 4) : Nat) : Int))
            (2 + ((f (j + 1) % (s.H - 4) : Nat) : Int)) < 200 →
            get s (2 + ((f j % (s.W - 4) : Nat) : Int))
              (2 + ((f (j + 1) % (s.H - 4) : Nat) : Int)) ≤ bv := by
          intro h200
          by_contra hgt
          exact hupd ⟨by omega, h200⟩
        rcases hih with ⟨hx, hy, hv, hmax⟩ | ⟨hmem, hveq, hpos, hlt, hgt, hmax⟩
        · left
          refine ⟨hx, hy, hv, ?_⟩
          intro c hc
          rcases List.mem_cons.mp hc with hc0 | hcr
          · subst hc0
            dsimp only
            exact hno
          · exact hmax c hcr
        · right
          refine ⟨List.mem_cons_of_mem _ hmem, hveq, hpos, hlt, hgt, ?_⟩
          intro c hc
          rcases List.mem_cons.mp hc with hc0 | hcr
          · subst hc0
            dsimp only
            intro hclt
            have := hno hclt
            omega
          · exact hmax c hcr

/-- Every respawn candidate lies in [2, W-3] × [2, H-3] (one cell inside
the playable interior). -/
theorem respawnCandList_range (f : Nat → Nat) (s : CitySim) (hW : 5 ≤ s.W) (hH : 5 ≤ s.H) :
    ∀ (t j : Nat), ∀ c ∈ respawnCandList f s t j,
      2 ≤ c.1 ∧ c.1 ≤ (s.W : Int) - 3 ∧ 2 ≤ c.2 ∧ c.2 ≤ (s.H : Int) - 3 := by
  intro t
  induction t with
  | zero =>
      intro j c hc
      simp [respawnCandList] at hc
  | succ t ih =>
      intro j c hc
      rw [respawnCandList_succ] at hc
      rcases List.mem_cons.mp hc with hc0 | hcr
      · subst hc0
        have h1 : f j % (s.W - 4) < s.W - 4 := Nat.mod_lt _ (by omega)
        have h2 : f (j + 1) % (s.H - 4) < s.H - 4 := Nat.mod_lt _ (by omega)
        exact ⟨by omega, by omega, by omega, by omega⟩
      · exact ih (j + 2) c hcr

/-- The respawn sampling loop never moves the best x below 2. -/
theorem respawnTries_x_ge (f : Nat → Nat) (s : CitySim) :
    ∀ (t j : Nat) (bx b_y : Int) (bv : Nat), 2 ≤ bx →
      2 ≤ (respawnTries f s t j (bx, b_y, bv)).1.1 := by
  intro t
  induction t with
  | zero => exact fun j bx b_y bv hbx => hbx
  | succ t ih =>
      intro j bx b_y bv hbx
      rw [respawnTries_succ]
      by_cases hupd : bv < get s (2 + ((f j % (s.W - 4) : Nat) : Int))
            (2 + ((f (j + 1) % (s.H - 4) : Nat) : Int))
          ∧ get s (2 + ((f j % (s.W - 4) : Nat) : Int))
            (2 + ((f (j + 1) % (s.H - 4) : Nat) : Int)) < 200
      · rw [if_pos hupd]
        exact ih (j + 2) _ _ _ (by omega)
      · rw [if_neg hupd]
        exact ih (j + 2) bx b_y bv hbx

/-- Every entry of the dirs table is an axis-aligned unit vector. -/
theorem unitDir_dirAt (d : Nat) : unitDir (dirAt d).1 (dirAt d).2 := by
  rcases dirAt_mem d with h | h | h | h <;> rw [h] <;> simp [unitDir]



/-- respawnAgent's fields in terms of the sampling loop's result. -/
theorem respawnAgent_parts (f : Nat → Nat) (s : CitySim) (j : Nat) :
    (respawnAgent f s j).1.x = (respawnTries f s 15 j (s.seedX, s.seedY, 0)).1.1
    ∧ (respawnAgent f s j).1.y = (respawnTries f s 15 j (s.seedX, s.seedY, 0)).1.2.1
    ∧ (respawnAgent f s j).1.dx
        = (dirAt (f (respawnTries f s 15 j (s.seedX, s.seedY, 0)).2 % 4)).1
    ∧ (respawnAgent f s j).1.dy
        = (dirAt (f (respawnTries f s 15 j (s.seedX, s.seedY, 0)).2 % 4)).2
    ∧ (respawnAgent f s j).1.life
        = 200 + f ((respawnTries f s 15 j (s.seedX, s.seedY, 0)).2 + 1) % 55 :=
  ⟨rfl, rfl, rfl, rfl, rfl⟩

/-- C5 (amended): respawnAgent draws 15 candidates from
[2, W-3] × [2, H-3] (one cell inside the interior, not the full interior),
assigns the candidate with the highest intensity strictly between 0 and 200
(fallback: the seed point when no candidate qualifies), an axis-aligned unit
direction from the dirs table, and life in [200, 255); writing the result
back into any slot leaves the occupied count unchanged. -/
theorem claim_C5_respawn_postcondition (f : Nat → Nat) (s : CitySim) (j : Nat)
    (hW : 5 ≤ s.W) (hH : 5 ≤ s.H) :
    (∀ c ∈ respawnCandList f s 15 j,
        2 ≤ c.1 ∧ c.1 ≤ (s.W : Int) - 3 ∧ 2 ≤ c.2 ∧ c.2 ≤ (s.H : Int) - 3)
    ∧ ((((respawnAgent f s j).1.x, (respawnAgent f s j).1.y) ∈ respawnCandList f s 15 j
          ∧ qualifies s ((respawnAgent f s j).1.x, (respawnAgent f s j).1.y)
          ∧ ∀ c ∈ respawnCandList f s 15 j, qualifies s c →
              get s c.1 c.2 ≤ get s (respawnAgent f s j).1.x (respawnAgent f s j).1.y)
       ∨ ((respawnAgent f s j).1.x = s.seedX ∧ (respawnAgent f s j).1.y = s.seedY
          ∧ ∀ c ∈ respawnCandList f s 15 j, ¬ qualifies s c))
    ∧ unitDir (respawnAgent f s j).1.dx (respawnAgent f s j).1.dy
    ∧ 200 ≤ (respawnAgent f s j).1.life ∧ (respawnAgent f s j).1.life < 255
    ∧ ∀ i : Nat, (s.agents.set i (respawnAgent f s j).1).length = s.agents.length := by
  obtain ⟨hxeq, hyeq, hdxeq, hdyeq, hlifeeq⟩ := respawnAgent_parts f s j
  have hspec := respawnTries_spec f s 15 j s.seedX s.seedY 0
    (respawnTries f s 15 j (s.seedX, s.seedY, 0)) rfl (Or.inl rfl)
  refine ⟨respawnCandList_range f s hW hH 15 j, ?_, ?_, ?_, ?_, ?_⟩
  · rcases hspec with ⟨hx, hy, hv, hmax⟩ | ⟨hmem, hveq, hpos, hlt, hgt, hmax⟩
    · right
      refine ⟨hxeq.trans hx, hyeq.trans hy, ?_⟩
      rintro c hc ⟨hq1, hq2⟩
      have := hmax c hc hq2
      omega
    · left
      refine ⟨?_, ?_, ?_⟩
      · rw [hxeq, hyeq]
        exact hmem
      · simp only [qualifies]
        rw [hxeq, hyeq, ← hveq]
        exact ⟨hpos, hlt⟩
      · intro c hc hq
        rw [hxeq, hyeq, ← hveq]
        exact hmax c hc hq.2
  · rw [hdxeq, hdyeq]
    exact unitDir_dirAt _
  · rw [hlifeeq]
    omega
  · rw [hlifeeq]
    have : f ((respawnTries f s 15 j (s.seedX, s.seedY, 0)).2 + 1) % 55 < 55 :=
      Nat.mod_lt _ (by omega)
    omega
  · intro i
    exact List.length_set _ _ _

/-- C5 counterexample: on the 240 × 135 grid whose only lit cell is the
interior point (1, 1) (intensity 100, strictly between 0 and 200), no random
stream can make respawnAgent place the agent at x = 1, although sampling
uniformly from the interior [1, W-2] × [1, H-2], as the claim states, would
reach it; candidates are in fact drawn from x in [2, W-3]. -/
theorem claim_C5_counterexample :
    ¬ ∃ (f : Nat → Nat) (j : Nat),
        ((respawnAgent f ⟨240, 135, fun i => if i = 241 then 100 else 0, [], 120, 67, 0, 0⟩ j).1).x
          = 1 := by
  rintro ⟨f, j, hx⟩
  obtain ⟨hxeq, _, _, _, _⟩ :=
    respawnAgent_parts f ⟨240, 135, fun i => if i = 241 then 100 else 0, [], 120, 67, 0, 0⟩ j
  rw [hxeq] at hx
  have h2 := respawnTries_x_ge f
    ⟨240, 135, fun i => if i = 241 then 100 else 0, [], 120, 67, 0, 0⟩ 15 j
    (⟨240, 135, fun i => if i = 241 then 100 else 0, [], 120, 67, 0, 0⟩ : CitySim).seedX
    (⟨240, 135, fun i => if i = 241 then 100 else 0, [], 120, 67, 0, 0⟩ : CitySim).seedY 0
    (by decide)
  omega



/-- Witness for C5 on a concrete all-dark 5 × 5 grid. -/
theorem claim_C5_witness :
    ((5 : Nat) ≤ 5 ∧ (5 : Nat) ≤ 5) ∧
    ((∀ c ∈ respawnCandList (fun _ => 0) ⟨5, 5, fun _ => 0, [], 2, 2, 0, 0⟩ 15 0,
        2 ≤ c.1 ∧ c.1 ≤ ((5 : Nat) : Int) - 3 ∧ 2 ≤ c.2 ∧ c.2 ≤ ((5 : Nat) : Int) - 3)
    ∧ ((((respawnAgent (fun _ => 0) ⟨5, 5, fun _ => 0, [], 2, 2, 0, 0⟩ 0).1.x,
          (respawnAgent (fun _ => 0) ⟨5, 5, fun _ => 0, [], 2, 2, 0, 0⟩ 0).1.y)
            ∈ respawnCandList (fun _ => 0) ⟨5, 5, fun _ => 0, [], 2, 2, 0, 0⟩ 15 0
          ∧ qualifies ⟨5, 5, fun _ => 0, [], 2, 2, 0, 0⟩
              ((respawnAgent (fun _ => 0) ⟨5, 5, fun _ => 0, [], 2, 2, 0, 0⟩ 0).1.x,
               (respawnAgent (fun _ => 0) ⟨5, 5, fun _ => 0, [], 2, 2, 0, 0⟩ 0).1.y)
          ∧ ∀ c ∈ respawnCandList (fun _ => 0) ⟨5, 5, fun _ => 0, [], 2, 2, 0, 0⟩ 15 0,
              qualifies ⟨5, 5, fun _ => 0, [], 2, 2, 0, 0⟩ c →
              get ⟨5, 5, fun _ => 0, [], 2, 2, 0, 0⟩ c.1 c.2
                ≤ get ⟨5, 5, fun _ => 0, [], 2, 2, 0, 0⟩
                    (respawnAgent (fun _ => 0) ⟨5, 5, fun _ => 0, [], 2, 2, 0, 0⟩ 0).1.x
                    (respawnAgent (fun _ => 0) ⟨5, 5, fun _ => 0, [], 2, 2, 0, 0⟩ 0).1.y)
       ∨ ((respawnAgent (fun _ => 0) ⟨5, 5, fun _ => 0, [], 2, 2, 0, 0⟩ 0).1.x = (2 : Int)
          ∧ (respawnAgent (fun _ => 0) ⟨5, 5, fun _ => 0, [], 2, 2, 0, 0⟩ 0).1.y = (2 : Int)
          ∧ ∀ c ∈ respawnCandList (fun _ => 0) ⟨5, 5, fun _ => 0, [], 2, 2, 0, 0⟩ 15 0,
              ¬ qualifies ⟨5, 5, fun _ => 0, [], 2, 2, 0, 0⟩ c))
    ∧ unitDir (respawnAgent (fun _ => 0) ⟨5, 5, fun _ => 0, [], 2, 2, 0, 0⟩ 0).1.dx
        (respawnAgent (fun _ => 0) ⟨5, 5, fun _ => 0, [], 2, 2, 0, 0⟩ 0).1.dy
    ∧ 200 ≤ (respawnAgent (fun _ => 0) ⟨5, 5, fun _ => 0, [], 2, 2, 0, 0⟩ 0).1.life
    ∧ (respawnAgent (fun _ => 0) ⟨5, 5, fun _ => 0, [], 2, 2, 0, 0⟩ 0).1.life < 255
    ∧ ∀ i : Nat,
        (([] : List Agent).set i
            (respawnAgent (fun _ => 0) ⟨5, 5, fun _ => 0, [], 2, 2, 0, 0⟩ 0).1).length
          = ([] : List Agent).length) :=
  ⟨⟨by decide, by decide⟩,
   claim_C5_respawn_postcondition (fun _ => 0) ⟨5, 5, fun _ => 0, [], 2, 2, 0, 0⟩ 0
     (by decide) (by decide)⟩

/-! ### Claim C10: end-of-step population floor -/

/-- respawnAgent always assigns life 200 + r % 55, so at least 200. -/
theorem respawnAgent_life (f : Nat → Nat) (s : CitySim) (j : Nat) :
    200 ≤ (respawnAgent f s j).1.life := by
  unfold respawnAgent
  exact Nat.le_add_right 200 _

/-- The active count never exceeds the occupied count. -/
theorem activeCount_le (s : CitySim) : activeCount s ≤ s.agents.length :=
  List.countP_le_length _

/-- When every occupied slot is alive the active count is the occupied
count. -/
theorem activeCount_all_alive (s : CitySim) (h : ∀ a ∈ s.agents, 0 < a.life) :
    activeCount s = s.agents.length := by
  unfold activeCount
  rw [List.countP_eq_length]
  intro a ha
  simpa using h a ha

/-- The forced-respawn loop, entered with an accurate active count of at
most 12 and an all-alive scanned prefix, ends with exactly
min(12, occupied) active agents. -/
theorem maintLoop_post (f : Nat → Nat) :
    ∀ (fuel i active : Nat) (s : CitySim) (j : Nat),
      s.agents.length + 1 ≤ fuel + i →
      active = activeCount s →
      active ≤ 12 →
      (∀ k, k < i → ∀ a, s.agents[k]? = some a → 0 < a.life) →
      activeCount (maintLoop f fuel i active s j).1 = min 12 s.agents.length := by
  intro fuel
  induction fuel with
  | zero =>
      intro i active s j hfuel hact h12 hpre
      have hall : ∀ a ∈ s.agents, 0 < a.life := by
        intro a ha
        obtain ⟨k, hk, hgk⟩ := List.mem_iff_getElem.mp ha
        exact hpre k (by omega) a (by rw [List.getElem?_eq_getElem hk, hgk])
      have hlen : active = s.agents.length := hact.trans (activeCount_all_alive s hall)
      have : activeCount (maintLoop f 0 i active s j).1 = active := by
        simp only [maintLoop]
        omega
      omega
  | succ fuel ih =>
      intro i active s j hfuel hact h12 hpre
      simp only [maintLoop]
      split_ifs with hc
      · obtain ⟨hi, hlt12⟩ := hc
        rw [List.getElem?_eq_getElem hi]
        simp only []
        split_ifs with h0
        · have h200 := respawnAgent_life f s j
          have hset : activeCount { s with agents := s.agents.set i (respawnAgent f s j).1 }
              = active + 1 := by
            show (s.agents.set i (respawnAgent f s j).1).countP _ = active + 1
            rw [List.countP_set _ _ _ _ hi]
            have hp1 : ¬ ((fun a => decide (0 < a.life)) s.agents[i] = true) := by
              simp [h0]
            have hp2 : (fun a => decide (0 < a.life)) (respawnAgent f s j).1 = true := by
              simp only [decide_eq_true_eq]
              omega
            rw [if_neg hp1, if_pos hp2]
            simp only [activeCount] at hact
            omega
          have hres := ih (i + 1) (active + 1)
            { s with agents := s.agents.set i (respawnAgent f s j).1 } (respawnAgent f s j).2
            (by simp only [List.length_set]; omega)
            hset.symm
            (by omega)
            (by
              intro k hk a hka
              rcases Nat.lt_or_ge k i with hki | hki
              · exact hpre k hki a (by rw [← List.getElem?_set_ne (by omega : i ≠ k)]; exact hka)
              · have hkeq : k = i := by omega
                subst hkeq
                rw [List.getElem?_set_self hi] at hka
                cases hka
                have := respawnAgent_life f s j
                omega)
          rw [hres]
          simp [List.length_set]
        · exact ih (i + 1) active s j (by omega) hact h12
            (by
              intro k hk a hka
              rcases Nat.lt_or_ge k i with hki | hki
              · exact hpre k hki a hka
              · have hkeq : k = i := by omega
                subst hkeq
                rw [List.getElem?_eq_getElem hi] at hka
                cases hka
                omega)
      · push_neg at hc
        by_cases hi : i < s.agents.length
        · have h12' : 12 ≤ active := hc hi
          have hle : s.activeCount ≤ s.agents.length := activeCount_le s
          show s.activeCount = 12 ⊓ s.agents.length
          omega
        · have hall : ∀ a ∈ s.agents, 0 < a.life := by
            intro a ha
            obtain ⟨k, hk, hgk⟩ := List.mem_iff_getElem.mp ha
            exact hpre k (by omega) a (by rw [List.getElem?_eq_getElem hk, hgk])
          have hlen : active = s.agents.length := hact.trans (activeCount_all_alive s hall)
          show activeCount s = min 12 s.agents.length
          omega



/-- The safety net: below 8 active agents it raises the active count to
min(12, occupied); otherwise it changes nothing. -/
theorem maintain_active (f : Nat → Nat) (s : CitySim) (j : Nat) :
    activeCount (maintain f s j).1
      = if activeCount s < 8 then min 12 s.agents.length else activeCount s := by
  simp only [maintain]
  split_ifs with hc
  · exact maintLoop_post f (s.agents.length + 1) 0 (activeCount s) s j (by omega) rfl
      (by omega) (fun k hk => absurd hk (Nat.not_lt_zero k))
  · rfl

/-- C10: when step() returns, the number of active agents is at least
min(8, occupied count); when fewer than 8 were active after the per-agent
updates, the maintenance pass leaves exactly min(12, occupied count)
active, each respawn granting life at least 200. -/
theorem claim_C10_population_floor (f : Nat → Nat) (s : CitySim) (j : Nat) :
    min 8 ((step f s j).1.agents.length) ≤ activeCount (step f s j).1
    ∧ (activeCount (stepPre f s j).1 < 8 →
        activeCount (step f s j).1 = min 12 ((stepPre f s j).1.agents.length))
    ∧ (∀ (s' : CitySim) (j' : Nat), 200 ≤ (respawnAgent f s' j').1.life) := by
  have hstep : step f s j = maintain f (stepPre f s j).1 (stepPre f s j).2 := rfl
  obtain ⟨mW, mH, msx, msy, mst, mgr, mlen⟩ :=
    maintain_frame f (stepPre f s j).1 (stepPre f s j).2
  have hma := maintain_active f (stepPre f s j).1 (stepPre f s j).2
  refine ⟨?_, ?_, fun s' j' => respawnAgent_life f s' j'⟩
  · rw [hstep, mlen, hma]
    split_ifs with hc
    · exact min_le_min (by omega) (le_refl _)
    · calc min 8 (stepPre f s j).1.agents.length ≤ 8 := Nat.min_le_left _ _
        _ ≤ _ := by omega
  · intro hlt
    rw [hstep, hma, if_pos hlt]


/-! ### Claim C4: bloom falloff -/

/-- The int16-to-uint16 conversion is the identity on [0, 65536). -/
theorem toU16_int_eq {z : Int} (h0 : 0 ≤ z) (h : z < 65536) : toU16 z = z.toNat := by
  unfold toU16
  rw [Int.emod_eq_of_lt h0 h]

/-- The flat index y * W + x determines x and y for x < W. -/
theorem flat_inj {w : Nat} (hw : 0 < w) {x1 x2 y1 y2 : Nat} (h1 : x1 < w) (h2 : x2 < w)
    (he : y1 * w + x1 = y2 * w + x2) : x1 = x2 ∧ y1 = y2 := by
  have m1 : (y1 * w + x1) % w = x1 := by
    rw [Nat.add_comm, Nat.add_mul_mod_self_right]
    exact Nat.mod_eq_of_lt h1
  have m2 : (y2 * w + x2) % w = x2 := by
    rw [Nat.add_comm, Nat.add_mul_mod_self_right]
    exact Nat.mod_eq_of_lt h2
  have hx : x1 = x2 := by rw [← m1, ← m2, he]
  refine ⟨hx, ?_⟩
  have : y1 * w = y2 * w := by omega
  exact Nat.eq_of_mul_eq_mul_right hw this

/-- In-range coordinates give a flat index below W * H. -/
theorem flatIdx_lt {s : CitySim} {x y : Nat} (hx : x < s.W) (hy : y < s.H) :
    y * s.W + x < s.W * s.H := by
  calc y * s.W + x < y * s.W + s.W := by omega
  _ = (y + 1) * s.W := by ring
  _ ≤ s.H * s.W := Nat.mul_le_mul_right _ (by omega)
  _ = s.W * s.H := Nat.mul_comm _ _

/-- For in-range coordinates on a grid of at most 65536 cells, addIntensity
writes the saturated sum at the exact flat index and nothing else. -/
theorem addIntensity_grid_eq (s : CitySim) (x y : Int) (amt : Nat)
    (hx0 : 0 ≤ x) (hxW : x < (s.W : Int)) (hy0 : 0 ≤ y) (hyH : y < (s.H : Int))
    (hWH : s.W * s.H ≤ 65536) :
    (addIntensity s x y amt).grid = fun i =>
      if i = y.toNat * s.W + x.toNat then
        (if 255 < s.grid (y.toNat * s.W + x.toNat) + amt then 255
         else s.grid (y.toNat * s.W + x.toNat) + amt)
      else s.grid i := by
  have hxn : x.toNat < s.W := by omega
  have hyn : y.toNat < s.H := by omega
  have hW1 : 0 < s.W := by omega
  have hH1 : 0 < s.H := by omega
  have hW65 : s.W ≤ 65536 := by
    calc s.W = s.W * 1 := by ring
    _ ≤ s.W * s.H := Nat.mul_le_mul_left _ hH1
    _ ≤ 65536 := hWH
  have hH65 : s.H ≤ 65536 := by
    calc s.H = 1 * s.H := by ring
    _ ≤ s.W * s.H := Nat.mul_le_mul_right _ hW1
    _ ≤ 65536 := hWH
  have hxu : toU16 x = x.toNat := toU16_int_eq hx0 (by omega)
  have hyu : toU16 y = y.toNat := toU16_int_eq hy0 (by omega)
  have hlt : y.toNat * s.W + x.toNat < 65536 :=
    lt_of_lt_of_le (flatIdx_lt hxn hyn) hWH
  simp only [addIntensity, hxu, hyu, Nat.mod_eq_of_lt hlt]



/-- toI16 is the identity on values already in int16_t range. -/
theorem toI16_eq_self {z : Int} (h1 : -32768 ≤ z) (h2 : z ≤ 32767) : toI16 z = z := by
  unfold toI16
  omega

/-- toU8 is plain toNat on values already in uint8_t range. -/
theorem toU8_eq_toNat {z : Int} (h1 : 0 ≤ z) (h2 : z ≤ 255) : toU8 z = z.toNat := by
  unfold toU8
  omega

/-- Below the int16_t truncation threshold (d2 ≤ 10816 = 104², so that
3·d2 ≤ 32448 fits), the faithful add amount collapses to the spec's
strength - min(strength, 3·d2). -/
theorem bloomAdd_no_trunc (st : Nat) (D : Int) (hst : st ≤ 255)
    (hD0 : 0 ≤ D) (hD : D ≤ 10816) :
    toU8 ((st : Int) - (toU8 (min (st : Int) (toI16 (toI16 D * 3))) : Int))
      = st - min st (D * 3).toNat := by
  rw [show toI16 D = D from toI16_eq_self (by omega) (by omega)]
  rw [show toI16 (D * 3) = D * 3 from toI16_eq_self (by omega) (by omega)]
  unfold toU8
  omega

/-- A bloomCell aimed at a different cell leaves the target cell alone. -/
theorem bloomCell_miss (t : CitySim) (cx cy : Int) (r st : Nat) (x y : Int)
    (pxn pyn : Nat) (hpx : pxn < t.W) (hpy : pyn < t.H) (hWH : t.W * t.H ≤ 65536)
    (hne : ¬ (cx + x = (pxn : Int) ∧ cy + y = (pyn : Int))) :
    (bloomCell t cx cy r st x y).grid (pyn * t.W + pxn) = t.grid (pyn * t.W + pxn) := by
  simp only [bloomCell]
  split_ifs with hguard hd2
  · rfl
  · rfl
  · push_neg at hguard
    obtain ⟨g1, g2, g3, g4⟩ := hguard
    have hW0 : 0 < t.W := by omega
    have hxlt : (cx + x).toNat < t.W := by omega
    have hne2 : pyn * t.W + pxn ≠ (cy + y).toNat * t.W + (cx + x).toNat := by
      intro heq
      obtain ⟨hxe, hye⟩ := flat_inj hW0 hpx hxlt heq
      exact hne ⟨by omega, by omega⟩
    simp only [addIntensity_grid_eq t (cx + x) (cy + y) _ (by omega) (by omega) (by omega)
      (by omega) hWH]
    rw [if_neg hne2]

/-- A bloomCell aimed at an interior target cell either skips it (outside
the circle as seen through the int16_t d2) or adds the truncated-arithmetic
falloff amount, saturating at 255. -/
theorem bloomCell_hit (t : CitySim) (cx cy : Int) (r st : Nat) (x y : Int)
    (pxn pyn : Nat) (hWH : t.W * t.H ≤ 65536)
    (hint : inInterior t.W t.H (pxn : Int) (pyn : Int))
    (hx : cx + x = (pxn : Int)) (hy : cy + y = (pyn : Int)) :
    (bloomCell t cx cy r st x y).grid (pyn * t.W + pxn)
      = if (r : Int) * r < toI16 (x * x + y * y) then t.grid (pyn * t.W + pxn)
        else (if 255 < t.grid (pyn * t.W + pxn)
                  + toU8 ((st : Int)
                      - (toU8 (min (st : Int) (toI16 (toI16 (x * x + y * y) * 3))) : Int))
              then 255
              else t.grid (pyn * t.W + pxn)
                  + toU8 ((st : Int)
                      - (toU8 (min (st : Int) (toI16 (toI16 (x * x + y * y) * 3))) : Int))) := by
  obtain ⟨i1, i2, i3, i4⟩ := hint
  have hqx : (cx + x).toNat = pxn := by omega
  have hqy : (cy + y).toNat = pyn := by omega
  simp only [bloomCell]
  rw [if_neg (by omega)]
  split_ifs with hd2 hcl
  · rfl
  · simp only [addIntensity_grid_eq t (cx + x) (cy + y) _ (by omega) (by omega) (by omega)
      (by omega) hWH, hqx, hqy, eq_self_iff_true, if_true, if_pos hcl]
  · simp only [addIntensity_grid_eq t (cx + x) (cy + y) _ (by omega) (by omega) (by omega)
      (by omega) hWH, hqx, hqy, eq_self_iff_true, if_true, if_neg hcl]

/-- bloomCell never changes a cell outside the interior. -/
theorem bloomCell_preserve_noninterior (t : CitySim) (cx cy : Int) (r st : Nat) (x y : Int)
    (pxn pyn : Nat) (hpx : pxn < t.W) (hpy : pyn < t.H) (hWH : t.W * t.H ≤ 65536)
    (hnint : ¬ inInterior t.W t.H (pxn : Int) (pyn : Int)) :
    (bloomCell t cx cy r st x y).grid (pyn * t.W + pxn) = t.grid (pyn * t.W + pxn) := by
  by_cases hhit : cx + x = (pxn : Int) ∧ cy + y = (pyn : Int)
  · simp only [bloomCell]
    rw [if_pos ?_]
    simp only [inInterior] at hnint
    omega
  · exact bloomCell_miss t cx cy r st x y pxn pyn hpx hpy hWH hhit



/-- bloomCell_miss with the flat index generalised. -/
theorem bloomCell_miss_q (t : CitySim) (cx cy : Int) (r st : Nat) (x y : Int)
    (pxn pyn : Nat) (q : Nat) (hq : q = pyn * t.W + pxn)
    (hpx : pxn < t.W) (hpy : pyn < t.H) (hWH : t.W * t.H ≤ 65536)
    (hne : ¬ (cx + x = (pxn : Int) ∧ cy + y = (pyn : Int))) :
    (bloomCell t cx cy r st x y).grid q = t.grid q := by
  subst hq
  exact bloomCell_miss t cx cy r st x y pxn pyn hpx hpy hWH hne

/-- bloomCell_hit with the flat index generalised. -/
theorem bloomCell_hit_q (t : CitySim) (cx cy : Int) (r st : Nat) (x y : Int)
    (pxn pyn : Nat) (q : Nat) (hq : q = pyn * t.W + pxn) (hWH : t.W * t.H ≤ 65536)
    (hint : inInterior t.W t.H (pxn : Int) (pyn : Int))
    (hx : cx + x = (pxn : Int)) (hy : cy + y = (pyn : Int)) :
    (bloomCell t cx cy r st x y).grid q
      = if (r : Int) * r < toI16 (x * x + y * y) then t.grid q
        else (if 255 < t.grid q
                  + toU8 ((st : Int)
                      - (toU8 (min (st : Int) (toI16 (toI16 (x * x + y * y) * 3))) : Int))
              then 255
              else t.grid q
                  + toU8 ((st : Int)
                      - (toU8 (min (st : Int) (toI16 (toI16 (x * x + y * y) * 3))) : Int))) := by
  subst hq
  exact bloomCell_hit t cx cy r st x y pxn pyn hWH hint hx hy

/-- bloomCell_preserve_noninterior with the flat index generalised. -/
theorem bloomCell_noninterior_q (t : CitySim) (cx cy : Int) (r st : Nat) (x y : Int)
    (pxn pyn : Nat) (q : Nat) (hq : q = pyn * t.W + pxn)
    (hpx : pxn < t.W) (hpy : pyn < t.H) (hWH : t.W * t.H ≤ 65536)
    (hnint : ¬ inInterior t.W t.H (pxn : Int) (pyn : Int)) :
    (bloomCell t cx cy r st x y).grid q = t.grid q := by
  subst hq
  exact bloomCell_preserve_noninterior t cx cy r st x y pxn pyn hpx hpy hWH hnint

/-- Effect of one row of bloom's double loop on one interior target cell:
written exactly when the row matches and some column offset matches, inside
the circle. -/
theorem bloomRow_at (cx cy : Int) (r st : Nat) (ky : Nat) (pxn pyn : Nat) (t : CitySim)
    (q : Nat) (hq : q = pyn * t.W + pxn)
    (hpx : pxn < t.W) (hpy : pyn < t.H) (hWH : t.W * t.H ≤ 65536)
    (hint : inInterior t.W t.H (pxn : Int) (pyn : Int)) :
    ∀ n : Nat,
    ((List.range n).foldl
        (fun s2 (kx : Nat) => bloomCell s2 cx cy r st ((kx : Int) - r) ((ky : Int) - r)) t).grid
      q
      = if (cy + ((ky : Int) - r) = (pyn : Int))
            ∧ (∃ kx, kx < n ∧ (kx : Int) - r = (pxn : Int) - cx)
            ∧ ¬ ((r : Int) * r
                  < toI16 (((pxn : Int) - cx) * ((pxn : Int) - cx)
                      + ((pyn : Int) - cy) * ((pyn : Int) - cy)))
        then (if 255 < t.grid q
                  + toU8 ((st : Int)
                      - (toU8 (min (st : Int)
                          (toI16 (toI16 (((pxn : Int) - cx) * ((pxn : Int) - cx)
                              + ((pyn : Int) - cy) * ((pyn : Int) - cy)) * 3))) : Int))
              then 255
              else t.grid q
                  + toU8 ((st : Int)
                      - (toU8 (min (st : Int)
                          (toI16 (toI16 (((pxn : Int) - cx) * ((pxn : Int) - cx)
                              + ((pyn : Int) - cy) * ((pyn : Int) - cy)) * 3))) : Int)))
        else t.grid q := by
  subst hq
  intro n
  induction n with
  | zero =>
      rw [List.range_zero, List.foldl_nil, if_neg]
      rintro ⟨-, ⟨kx, hkx, -⟩, -⟩
      omega
  | succ n ih =>
      rw [List.range_succ, List.foldl_append, List.foldl_cons, List.foldl_nil]
      obtain ⟨g, hg⟩ := foldl_gridOnly
        (fun s2 (kx : Nat) => bloomCell s2 cx cy r st ((kx : Int) - r) ((ky : Int) - r))
        (fun s2 kx => bloomCell_gridOnly s2 cx cy r st ((kx : Int) - r) ((ky : Int) - r))
        (List.range n) t
      rw [hg] at ih ⊢
      by_cases hhit : cx + ((n : Int) - r) = (pxn : Int) ∧ cy + ((ky : Int) - r) = (pyn : Int)
      · have hCn : ¬ ((cy + ((ky : Int) - r) = (pyn : Int))
            ∧ (∃ kx, kx < n ∧ (kx : Int) - r = (pxn : Int) - cx)
            ∧ ¬ ((r : Int) * r
                  < toI16 (((pxn : Int) - cx) * ((pxn : Int) - cx)
                      + ((pyn : Int) - cy) * ((pyn : Int) - cy)))) := by
          rintro ⟨-, ⟨kx, hkx, hkxe⟩, -⟩
          have := hhit.1
          omega
        rw [if_neg hCn] at ih
        have hbc := bloomCell_hit_q { t with grid := g } cx cy r st
          ((n : Int) - r) ((ky : Int) - r) pxn pyn (pyn * t.W + pxn) rfl hWH hint
          hhit.1 hhit.2
        rw [hbc, ih]
        have hxeq : (n : Int) - r = (pxn : Int) - cx := by
          have := hhit.1
          omega
        have hyeq : (ky : Int) - r = (pyn : Int) - cy := by
          have := hhit.2
          omega
        rw [hxeq, hyeq]
        by_cases hd2 : (r : Int) * r
            < toI16 (((pxn : Int) - cx) * ((pxn : Int) - cx)
                + ((pyn : Int) - cy) * ((pyn : Int) - cy))
        · have hnC : ¬ ((cy + ((pyn : Int) - cy) = (pyn : Int))
              ∧ (∃ kx, kx < n + 1 ∧ (kx : Int) - r = (pxn : Int) - cx)
              ∧ ¬ ((r : Int) * r
                    < toI16 (((pxn : Int) - cx) * ((pxn : Int) - cx)
                        + ((pyn : Int) - cy) * ((pyn : Int) - cy)))) := by
            rintro ⟨-, -, hnd⟩
            exact hnd hd2
          rw [if_pos hd2, if_neg hnC]
        · have hC : (cy + ((pyn : Int) - cy) = (pyn : Int))
              ∧ (∃ kx, kx < n + 1 ∧ (kx : Int) - r = (pxn : Int) - cx)
              ∧ ¬ ((r : Int) * r
                    < toI16 (((pxn : Int) - cx) * ((pxn : Int) - cx)
                        + ((pyn : Int) - cy) * ((pyn : Int) - cy))) :=
            ⟨by ring, ⟨n, by omega, hxeq⟩, hd2⟩
          rw [if_neg hd2, if_pos hC]
      · have hbc := bloomCell_miss_q { t with grid := g } cx cy r st
          ((n : Int) - r) ((ky : Int) - r) pxn pyn (pyn * t.W + pxn) rfl hpx hpy hWH hhit
        rw [hbc, ih]
        refine if_congr ?_ rfl rfl
        constructor
        · rintro ⟨hrow, ⟨kx, hkx, hkxe⟩, hnd⟩
          exact ⟨hrow, ⟨kx, by omega, hkxe⟩, hnd⟩
        · rintro ⟨hrow, ⟨kx, hkx, hkxe⟩, hnd⟩
          refine ⟨hrow, ⟨kx, ?_, hkxe⟩, hnd⟩
          have hnx : ¬ (cx + ((n : Int) - r) = (pxn : Int)) := fun hx0 => hhit ⟨hx0, hrow⟩
          omega



/-- Effect of bloom's double loop on one interior target cell: the cell is
written exactly once, when its offset lies in the square and the circle. -/
theorem bloomOuter_at (cx cy : Int) (r st : Nat) (pxn pyn : Nat) (t : CitySim)
    (hpx : pxn < t.W) (hpy : pyn < t.H) (hWH : t.W * t.H ≤ 65536)
    (hint : inInterior t.W t.H (pxn : Int) (pyn : Int)) :
    ∀ n : Nat,
    ((List.range n).foldl
        (fun s1 (ky : Nat) => (List.range (2 * r + 1)).foldl
          (fun s2 (kx : Nat) => bloomCell s2 cx cy r st ((kx : Int) - r) ((ky : Int) - r)) s1)
        t).grid (pyn * t.W + pxn)
      = if (∃ ky, ky < n ∧ (ky : Int) - r = (pyn : Int) - cy)
            ∧ (∃ kx, kx < 2 * r + 1 ∧ (kx : Int) - r = (pxn : Int) - cx)
            ∧ ¬ ((r : Int) * r
                  < toI16 (((pxn : Int) - cx) * ((pxn : Int) - cx)
                      + ((pyn : Int) - cy) * ((pyn : Int) - cy)))
        then (if 255 < t.grid (pyn * t.W + pxn)
                  + toU8 ((st : Int)
                      - (toU8 (min (st : Int)
                          (toI16 (toI16 (((pxn : Int) - cx) * ((pxn : Int) - cx)
                              + ((pyn : Int) - cy) * ((pyn : Int) - cy)) * 3))) : Int))
              then 255
              else t.grid (pyn * t.W + pxn)
                  + toU8 ((st : Int)
                      - (toU8 (min (st : Int)
                          (toI16 (toI16 (((pxn : Int) - cx) * ((pxn : Int) - cx)
                              + ((pyn : Int) - cy) * ((pyn : Int) - cy)) * 3))) : Int)))
        else t.grid (pyn * t.W + pxn) := by
  intro n
  induction n with
  | zero =>
      rw [List.range_zero, List.foldl_nil, if_neg]
      rintro ⟨⟨ky, hky, -⟩, -, -⟩
      omega
  | succ n ih =>
      rw [show List.range (n + 1) = List.range n ++ [n] from List.range_succ n,
        List.foldl_append, List.foldl_cons, List.foldl_nil]
      obtain ⟨g, hg⟩ := foldl_gridOnly
        (fun s1 (ky : Nat) => (List.range (2 * r + 1)).foldl
          (fun s2 (kx : Nat) => bloomCell s2 cx cy r st ((kx : Int) - r) ((ky : Int) - r)) s1)
        (fun s1 ky => foldl_gridOnly
          (fun s2 (kx : Nat) => bloomCell s2 cx cy r st ((kx : Int) - r) ((ky : Int) - r))
          (fun s2 kx => bloomCell_gridOnly s2 cx cy r st ((kx : Int) - r) ((ky : Int) - r))
          (List.range (2 * r + 1)) s1)
        (List.range n) t
      rw [hg] at ih ⊢
      have hrowl := bloomRow_at cx cy r st n pxn pyn { t with grid := g }
        (pyn * t.W + pxn) rfl hpx hpy hWH hint (2 * r + 1)
      rw [hrowl]
      by_cases hrow : cy + ((n : Int) - r) = (pyn : Int)
      · have hCn : ¬ ((∃ ky, ky < n ∧ (ky : Int) - r = (pyn : Int) - cy)
            ∧ (∃ kx, kx < 2 * r + 1 ∧ (kx : Int) - r = (pxn : Int) - cx)
            ∧ ¬ ((r : Int) * r
                  < toI16 (((pxn : Int) - cx) * ((pxn : Int) - cx)
                      + ((pyn : Int) - cy) * ((pyn : Int) - cy)))) := by
          rintro ⟨⟨ky, hky, hkye⟩, -, -⟩
          omega
        rw [if_neg hCn] at ih
        rw [ih]
        refine if_congr ?_ rfl rfl
        constructor
        · rintro ⟨-, hexk, hnd⟩
          exact ⟨⟨n, by omega, by omega⟩, hexk, hnd⟩
        · rintro ⟨-, hexk, hnd⟩
          exact ⟨hrow, hexk, hnd⟩
      · have hCrow : ¬ ((cy + ((n : Int) - r) = (pyn : Int))
            ∧ (∃ kx, kx < 2 * r + 1 ∧ (kx : Int) - r = (pxn : Int) - cx)
            ∧ ¬ ((r : Int) * r
                  < toI16 (((pxn : Int) - cx) * ((pxn : Int) - cx)
                      + ((pyn : Int) - cy) * ((pyn : Int) - cy)))) := by
          rintro ⟨hx0, -, -⟩
          exact hrow hx0
        rw [if_neg hCrow, ih]
        refine if_congr ?_ rfl rfl
        constructor
        · rintro ⟨⟨ky, hky, hkye⟩, hexk, hnd⟩
          exact ⟨⟨ky, by omega, hkye⟩, hexk, hnd⟩
        · rintro ⟨⟨ky, hky, hkye⟩, hexk, hnd⟩
          refine ⟨⟨ky, ?_, hkye⟩, hexk, hnd⟩
          have : ¬ ((ky : Int) = (n : Int)) := by
            intro hkn
            apply hrow
            omega
          omega



/-- A fold of grid-only steps that each preserve a non-interior cell
preserves that cell. -/
theorem foldl_preserve_grid_at {α : Type} (F : CitySim → α → CitySim) (pxn pyn : Nat)
    (hF : ∀ (t : CitySim) (a : α), pxn < t.W → pyn < t.H → t.W * t.H ≤ 65536 →
        ¬ inInterior t.W t.H (pxn : Int) (pyn : Int) →
        (F t a).grid (pyn * t.W + pxn) = t.grid (pyn * t.W + pxn)
        ∧ ∃ g, F t a = { t with grid := g }) :
    ∀ (l : List α) (t : CitySim), pxn < t.W → pyn < t.H → t.W * t.H ≤ 65536 →
      ¬ inInterior t.W t.H (pxn : Int) (pyn : Int) →
      (l.foldl F t).grid (pyn * t.W + pxn) = t.grid (pyn * t.W + pxn) := by
  intro l
  induction l with
  | nil => exact fun t _ _ _ _ => rfl
  | cons a l ihl =>
      intro t hpx hpy hWH hnint
      rw [List.foldl_cons]
      obtain ⟨hpres, g, hg⟩ := hF t a hpx hpy hWH hnint
      rw [hg] at hpres ⊢
      have h1 := ihl { t with grid := g } hpx hpy hWH hnint
      exact h1.trans hpres

/-- bloom never changes a cell outside the interior. -/
theorem bloom_noninterior_at (t : CitySim) (cx cy : Int) (r st : Nat) (pxn pyn : Nat)
    (hpx : pxn < t.W) (hpy : pyn < t.H) (hWH : t.W * t.H ≤ 65536)
    (hnint : ¬ inInterior t.W t.H (pxn : Int) (pyn : Int)) :
    (bloom t cx cy r st).grid (pyn * t.W + pxn) = t.grid (pyn * t.W + pxn) := by
  unfold bloom
  refine foldl_preserve_grid_at _ pxn pyn ?_ (List.range (2 * r + 1)) t hpx hpy hWH hnint
  intro u ky hupx hupy huWH hunint
  constructor
  · refine foldl_preserve_grid_at _ pxn pyn ?_ (List.range (2 * r + 1)) u hupx hupy huWH hunint
    intro v kx hvpx hvpy hvWH hvnint
    exact ⟨bloomCell_noninterior_q v cx cy r st ((kx : Int) - r) ((ky : Int) - r) pxn pyn
        (pyn * v.W + pxn) rfl hvpx hvpy hvWH hvnint,
      bloomCell_gridOnly v cx cy r st ((kx : Int) - r) ((ky : Int) - r)⟩
  · exact foldl_gridOnly
      (fun s2 (kx : Nat) => bloomCell s2 cx cy r st ((kx : Int) - r) ((ky : Int) - r))
      (fun s2 kx => bloomCell_gridOnly s2 cx cy r st ((kx : Int) - r) ((ky : Int) - r))
      (List.range (2 * r + 1)) u

/-- bloom's effect on an interior cell whose offset is realised by the loop
and passes the (int16_t) circle test: the faithful truncated-arithmetic
amount is added, saturating at 255. -/
theorem bloom_at_hit (cx cy : Int) (r st : Nat) (pxn pyn : Nat) (t : CitySim)
    (hpx : pxn < t.W) (hpy : pyn < t.H) (hWH : t.W * t.H ≤ 65536)
    (hint : inInterior t.W t.H (pxn : Int) (pyn : Int))
    (hky : ∃ ky, ky < 2 * r + 1 ∧ (ky : Int) - r = (pyn : Int) - cy)
    (hkx : ∃ kx, kx < 2 * r + 1 ∧ (kx : Int) - r = (pxn : Int) - cx)
    (hnd : ¬ ((r : Int) * r < toI16 (((pxn : Int) - cx) * ((pxn : Int) - cx)
        + ((pyn : Int) - cy) * ((pyn : Int) - cy)))) :
    (bloom t cx cy r st).grid (pyn * t.W + pxn)
      = if 255 < t.grid (pyn * t.W + pxn)
            + toU8 ((st : Int)
                - (toU8 (min (st : Int)
                    (toI16 (toI16 (((pxn : Int) - cx) * ((pxn : Int) - cx)
                        + ((pyn : Int) - cy) * ((pyn : Int) - cy)) * 3))) : Int))
        then 255
        else t.grid (pyn * t.W + pxn)
            + toU8 ((st : Int)
                - (toU8 (min (st : Int)
                    (toI16 (toI16 (((pxn : Int) - cx) * ((pxn : Int) - cx)
                        + ((pyn : Int) - cy) * ((pyn : Int) - cy)) * 3))) : Int)) := by
  have houter := bloomOuter_at cx cy r st pxn pyn t hpx hpy hWH hint (2 * r + 1)
  unfold bloom
  rw [houter, if_pos ⟨hky, hkx, hnd⟩]

/-- A bound on a sum of squares bounds each coordinate. -/
theorem abs_le_of_sq_sum_le {a b : Int} {r : Nat}
    (h : a * a + b * b ≤ (r : Int) * r) :
    (-(r : Int) ≤ a ∧ a ≤ r) ∧ (-(r : Int) ≤ b ∧ b ≤ r) := by
  have hb2 : 0 ≤ b * b := mul_self_nonneg b
  have ha2 : 0 ≤ a * a := mul_self_nonneg a
  have hr : (0 : Int) ≤ r := Int.ofNat_nonneg r
  refine ⟨⟨?_, ?_⟩, ⟨?_, ?_⟩⟩ <;> nlinarith

/-- An offset d is realised by some loop index below 2r + 1 exactly when
-r ≤ d ≤ r. -/
theorem exists_offset_iff (r : Nat) (d : Int) :
    (∃ k, k < 2 * r + 1 ∧ (k : Int) - r = d) ↔ (-(r : Int) ≤ d ∧ d ≤ r) := by
  constructor
  · rintro ⟨k, hk, he⟩
    omega
  · rintro ⟨h1, h2⟩
    exact ⟨(d + r).toNat, by omega, by omega⟩



/-- C4 (amended): for radii up to 104 — where 3·d² still fits int16_t; the
engine only ever uses radii 6, 10 and 18 — bloom on an all-zero grid with
the center in the interior leaves the center cell equal to the strength s;
every interior cell at offset (dx, dy) with dx² + dy² ≤ r² gains exactly
s - min(s, 3(dx² + dy²)); and every cell at squared distance strictly
greater than r² stays 0. At radii ≥ 105 the int16_t computation of
min(s, 3·d²) wraps and the falloff formula fails. -/
theorem claim_C4_bloom_falloff (s : CitySim) (cx cy : Int) (r st : Nat)
    (hWH : s.W * s.H ≤ 65536) (hst : st ≤ 255) (hr : r ≤ 104)
    (hzero : s.grid = fun _ => 0)
    (hcenter : inInterior s.W s.H cx cy) :
    (bloom s cx cy r st).grid (cy.toNat * s.W + cx.toNat) = st
    ∧ (∀ pxn pyn : Nat, pxn < s.W → pyn < s.H →
        (inInterior s.W s.H (pxn : Int) (pyn : Int) →
          ((pxn : Int) - cx) * ((pxn : Int) - cx) + ((pyn : Int) - cy) * ((pyn : Int) - cy)
              ≤ (r : Int) * r →
          (bloom s cx cy r st).grid (pyn * s.W + pxn)
            = st - min st (((((pxn : Int) - cx) * ((pxn : Int) - cx)
                + ((pyn : Int) - cy) * ((pyn : Int) - cy)) * 3).toNat))
        ∧ ((r : Int) * r
              < ((pxn : Int) - cx) * ((pxn : Int) - cx)
                + ((pyn : Int) - cy) * ((pyn : Int) - cy) →
          (bloom s cx cy r st).grid (pyn * s.W + pxn) = 0)) := by
  have key : ∀ pxn pyn : Nat, pxn < s.W → pyn < s.H →
      inInterior s.W s.H (pxn : Int) (pyn : Int) →
      ((pxn : Int) - cx) * ((pxn : Int) - cx) + ((pyn : Int) - cy) * ((pyn : Int) - cy)
          ≤ (r : Int) * r →
      (bloom s cx cy r st).grid (pyn * s.W + pxn)
        = st - min st (((((pxn : Int) - cx) * ((pxn : Int) - cx)
            + ((pyn : Int) - cy) * ((pyn : Int) - cy)) * 3).toNat) := by
    intro pxn pyn hpx hpy hint hd2
    have houter := bloomOuter_at cx cy r st pxn pyn s hpx hpy hWH hint (2 * r + 1)
    obtain ⟨⟨ha1, ha2⟩, hb1, hb2⟩ := abs_le_of_sq_sum_le hd2
    have hrI : (r : Int) * r ≤ 10816 := by
      have hc1 : (r : Int) ≤ 104 := by exact_mod_cast hr
      have hc0 : (0 : Int) ≤ r := Int.ofNat_nonneg r
      nlinarith
    have hD0 : (0 : Int) ≤ ((pxn : Int) - cx) * ((pxn : Int) - cx)
        + ((pyn : Int) - cy) * ((pyn : Int) - cy) :=
      add_nonneg (mul_self_nonneg _) (mul_self_nonneg _)
    have hI : toI16 (((pxn : Int) - cx) * ((pxn : Int) - cx)
          + ((pyn : Int) - cy) * ((pyn : Int) - cy))
        = ((pxn : Int) - cx) * ((pxn : Int) - cx)
          + ((pyn : Int) - cy) * ((pyn : Int) - cy) :=
      toI16_eq_self (by linarith) (by linarith)
    unfold bloom
    rw [houter, if_pos ⟨(exists_offset_iff r _).mpr ⟨hb1, hb2⟩,
      (exists_offset_iff r _).mpr ⟨ha1, ha2⟩, by rw [hI]; omega⟩, hzero,
      bloomAdd_no_trunc st _ hst hD0 (by linarith)]
    have hle : st - min st (((((pxn : Int) - cx) * ((pxn : Int) - cx)
        + ((pyn : Int) - cy) * ((pyn : Int) - cy)) * 3).toNat) ≤ 255 :=
      le_trans (Nat.sub_le _ _) hst
    split_ifs with hcl
    · simp only [Nat.zero_add] at hcl
      omega
    · simp only [Nat.zero_add]
  refine ⟨?_, fun pxn pyn hpx hpy => ⟨key pxn pyn hpx hpy, fun hgt => ?_⟩⟩
  · obtain ⟨i1, i2, i3, i4⟩ := hcenter
    have hcx : ((cx.toNat : Nat) : Int) = cx := Int.toNat_of_nonneg (by omega)
    have hcy : ((cy.toNat : Nat) : Int) = cy := Int.toNat_of_nonneg (by omega)
    have h := key cx.toNat cy.toNat (by omega) (by omega)
      (by
        simp only [inInterior]
        rw [hcx, hcy]
        exact ⟨i1, i2, i3, i4⟩)
      (by
        rw [hcx, hcy]
        simp only [sub_self, mul_zero, zero_mul, add_zero]
        positivity)
    rw [h, hcx, hcy]
    simp
  · by_cases hint : inInterior s.W s.H (pxn : Int) (pyn : Int)
    · have houter := bloomOuter_at cx cy r st pxn pyn s hpx hpy hWH hint (2 * r + 1)
      have hcneg : ¬ ((∃ ky, ky < 2 * r + 1 ∧ (ky : Int) - r = (pyn : Int) - cy)
          ∧ (∃ kx, kx < 2 * r + 1 ∧ (kx : Int) - r = (pxn : Int) - cx)
          ∧ ¬ ((r : Int) * r
                < toI16 (((pxn : Int) - cx) * ((pxn : Int) - cx)
                    + ((pyn : Int) - cy) * ((pyn : Int) - cy)))) := by
        rintro ⟨hky, hkx, hnd⟩
        obtain ⟨hdy1, hdy2⟩ := (exists_offset_iff r _).mp hky
        obtain ⟨hdx1, hdx2⟩ := (exists_offset_iff r _).mp hkx
        apply hnd
        have hrI : (r : Int) * r ≤ 10816 := by
          have hc1 : (r : Int) ≤ 104 := by exact_mod_cast hr
          have hc0 : (0 : Int) ≤ r := Int.ofNat_nonneg r
          nlinarith
        have hx2 : ((pxn : Int) - cx) * ((pxn : Int) - cx) ≤ (r : Int) * r := by nlinarith
        have hy2 : ((pyn : Int) - cy) * ((pyn : Int) - cy) ≤ (r : Int) * r := by nlinarith
        have hD0 : (0 : Int) ≤ ((pxn : Int) - cx) * ((pxn : Int) - cx)
            + ((pyn : Int) - cy) * ((pyn : Int) - cy) :=
          add_nonneg (mul_self_nonneg _) (mul_self_nonneg _)
        rw [toI16_eq_self (by linarith) (by linarith)]
        exact hgt
      unfold bloom
      rw [houter, if_neg hcneg, hzero]
    · rw [bloom_noninterior_at s cx cy r st pxn pyn hpx hpy hWH hint, hzero]



set_option maxRecDepth 4000 in
/-- Witness for C4 on a 16 × 16 all-zero grid, center (8, 8), radius 2,
strength 100. -/
theorem claim_C4_witness :
    ((16 : Nat) * 16 ≤ 65536 ∧ (100 : Nat) ≤ 255 ∧ (2 : Nat) ≤ 104
      ∧ (⟨16, 16, fun _ => 0, [], 0, 0, 0, 0⟩ : CitySim).grid = (fun _ => 0)
      ∧ inInterior 16 16 (8 : Int) (8 : Int)) ∧
    ((bloom ⟨16, 16, fun _ => 0, [], 0, 0, 0, 0⟩ 8 8 2 100).grid
        ((8 : Int).toNat * 16 + (8 : Int).toNat) = 100
    ∧ (∀ pxn pyn : Nat, pxn < 16 → pyn < 16 →
        (inInterior 16 16 (pxn : Int) (pyn : Int) →
          ((pxn : Int) - 8) * ((pxn : Int) - 8) + ((pyn : Int) - 8) * ((pyn : Int) - 8)
              ≤ ((2 : Nat) : Int) * 2 →
          (bloom ⟨16, 16, fun _ => 0, [], 0, 0, 0, 0⟩ 8 8 2 100).grid (pyn * 16 + pxn)
            = 100 - min 100 (((((pxn : Int) - 8) * ((pxn : Int) - 8)
                + ((pyn : Int) - 8) * ((pyn : Int) - 8)) * 3).toNat))
        ∧ (((2 : Nat) : Int) * 2
              < ((pxn : Int) - 8) * ((pxn : Int) - 8) + ((pyn : Int) - 8) * ((pyn : Int) - 8) →
          (bloom ⟨16, 16, fun _ => 0, [], 0, 0, 0, 0⟩ 8 8 2 100).grid (pyn * 16 + pxn) = 0))) :=
  ⟨⟨by decide, by decide, by decide, rfl, by decide⟩,
   claim_C4_bloom_falloff ⟨16, 16, fun _ => 0, [], 0, 0, 0, 0⟩ 8 8 2 100
     (by decide) (by decide) (by decide) rfl (by decide)⟩

/-- Counterexample to C4 as originally stated: at radius 127 (inside the
uint8_t range) on a 108 × 5 all-zero grid with interior center (1, 2), the
interior cell (106, 2) lies at squared distance 11025 ≤ 127², so the claim
demands a gain of 120 - min(120, 3·11025) = 0; but the source computes
min<int16_t>(120, 33075), which wraps to -32461, and the cell receives 69. -/
theorem claim_C4_counterexample :
    inInterior 108 5 (1 : Int) (2 : Int)
    ∧ inInterior 108 5 ((106 : Nat) : Int) ((2 : Nat) : Int)
    ∧ (((106 : Nat) : Int) - 1) * (((106 : Nat) : Int) - 1)
        + (((2 : Nat) : Int) - 2) * (((2 : Nat) : Int) - 2) ≤ ((127 : Nat) : Int) * 127
    ∧ 120 - min 120 (((((106 : Nat) : Int) - 1) * (((106 : Nat) : Int) - 1)
        + (((2 : Nat) : Int) - 2) * (((2 : Nat) : Int) - 2)) * 3).toNat = 0
    ∧ (bloom ⟨108, 5, fun _ => 0, [], 0, 0, 0, 0⟩ 1 2 127 120).grid (2 * 108 + 106) = 69 := by
  refine ⟨by decide, by decide, by decide, by decide, ?_⟩
  have h := bloom_at_hit 1 2 127 120 106 2 ⟨108, 5, fun _ => 0, [], 0, 0, 0, 0⟩
    (by decide) (by decide) (by decide) (by decide)
    ⟨127, by omega, by decide⟩ ⟨232, by omega, by decide⟩ (by decide)
  rw [show (⟨108, 5, fun _ => 0, [], 0, 0, 0, 0⟩ : CitySim).W = 108 from rfl] at h
  exact h.trans (by decide)

end CitySim
namespace CitySim

theorem foldl_preserves {α : Type} (P : CitySim → Prop) (g : CitySim → α → CitySim)
    (hg : ∀ s a, P s → P (g s a)) : ∀ (l : List α) (s : CitySim), P s → P (l.foldl g s) := by
  intro l
  induction l with
  | nil => exact fun s hs => hs
  | cons a l ih => exact fun s hs => ih (g s a) (hg s a hs)

theorem BorderZero_addIntensity (s : CitySim) (x y : Int) (amt : Nat)
    (hdims : GoodDims s) (hxy : inInterior s.W s.H x y) (hb : BorderZero s) :
    BorderZero (addIntensity s x y amt) := by
  obtain ⟨hW, hH, hWH⟩ := hdims
  obtain ⟨i1, i2, i3, i4⟩ := hxy
  intro bx b_y hbx hby hedge
  rw [addIntensity_W] at hbx hedge
  rw [addIntensity_H] at hby hedge
  have hb0 := hb bx b_y hbx hby hedge
  have hW0 : 0 < s.W := by omega
  have hxn : x.toNat < s.W := by omega
  have hne : b_y * s.W + bx ≠ y.toNat * s.W + x.toNat := by
    intro heq
    obtain ⟨hx1, hy1⟩ := flat_inj hW0 hbx hxn heq
    omega
  show (addIntensity s x y amt).grid (b_y * (addIntensity s x y amt).W + bx) = 0
  rw [addIntensity_W]
  simp only [addIntensity_grid_eq s x y amt (by omega) (by omega) (by omega) (by omega) hWH]
  rw [if_neg hne]
  exact hb0

theorem BorderZero_decay (s : CitySim) (amt : Nat) (hb : BorderZero s) :
    BorderZero (decay s amt) := by
  intro bx b_y hbx hby hedge
  show (decay s amt).grid (b_y * (decay s amt).W + bx) = 0
  rw [decay_W]
  have h0 := hb bx b_y hbx hby hedge
  simp only [decay]
  split_ifs <;> omega

theorem GoodState_addIntensity (s : CitySim) (x y : Int) (amt : Nat)
    (hxy : inInterior s.W s.H x y) (hgs : GoodState s) :
    GoodState (addIntensity s x y amt) := by
  obtain ⟨hdims, hseed, hai, hau, hbz, hlen⟩ := hgs
  exact ⟨hdims, hseed, hai, hau, BorderZero_addIntensity s x y amt hdims hxy hbz, hlen⟩

theorem GoodState_decay (s : CitySim) (amt : Nat) (hgs : GoodState s) :
    GoodState (decay s amt) := by
  obtain ⟨hdims, hseed, hai, hau, hbz, hlen⟩ := hgs
  exact ⟨hdims, hseed, hai, hau, BorderZero_decay s amt hbz, hlen⟩

theorem GoodState_bloomCell (s : CitySim) (cx cy : Int) (r st : Nat) (x y : Int)
    (hgs : GoodState s) : GoodState (bloomCell s cx cy r st x y) := by
  simp only [bloomCell]
  split_ifs with hguard hd2
  · exact hgs
  · exact hgs
  · exact GoodState_addIntensity s (cx + x) (cy + y) _ (by
      simp only [inInterior]
      omega) hgs

theorem GoodState_bloom (s : CitySim) (cx cy : Int) (r st : Nat) (hgs : GoodState s) :
    GoodState (bloom s cx cy r st) := by
  unfold bloom
  exact foldl_preserves GoodState _
    (fun s1 ky hs1 => foldl_preserves GoodState _
      (fun s2 kx hs2 => GoodState_bloomCell s2 cx cy r st _ _ hs2) _ s1 hs1) _ s hgs

theorem GoodState_addAgent (s : CitySim) (x y dx dy : Int) (life : Nat)
    (hpos : inInterior s.W s.H x y) (hdir : unitDir dx dy) (hgs : GoodState s) :
    GoodState (addAgent s x y dx dy life) := by
  obtain ⟨hdims, hseed, hai, hau, hbz, hlen⟩ := hgs
  unfold addAgent
  split_ifs with hcap
  · exact ⟨hdims, hseed, hai, hau, hbz, hlen⟩
  · refine ⟨hdims, hseed, ?_, ?_, hbz, ?_⟩
    · intro a ha
      rcases List.mem_append.mp ha with hm | hm
      · exact hai a hm
      · rcases List.mem_singleton.mp hm with rfl
        exact hpos
    · intro a ha
      rcases List.mem_append.mp ha with hm | hm
      · exact hau a hm
      · rcases List.mem_singleton.mp hm with rfl
        exact hdir
    · simp only [List.length_append, List.length_singleton]
      unfold MAX_AGENTS at hcap ⊢
      omega

end CitySim

namespace CitySim

theorem respawnTries_pos_interior (f : Nat → Nat) (s : CitySim) (hW : 5 ≤ s.W)
    (hH : 5 ≤ s.H) :
    ∀ (t j : Nat) (bx b_y : Int) (bv : Nat), inInterior s.W s.H bx b_y →
      inInterior s.W s.H (respawnTries f s t j (bx, b_y, bv)).1.1
        (respawnTries f s t j (bx, b_y, bv)).1.2.1 := by
  intro t
  induction t with
  | zero => exact fun j bx b_y bv hin => hin
  | succ t ih =>
      intro j bx b_y bv hin
      rw [respawnTries_succ]
      by_cases hupd : bv < get s (2 + ((f j % (s.W - 4) : Nat) : Int))
            (2 + ((f (j + 1) % (s.H - 4) : Nat) : Int))
          ∧ get s (2 + ((f j % (s.W - 4) : Nat) : Int))
            (2 + ((f (j + 1) % (s.H - 4) : Nat) : Int)) < 200
      · rw [if_pos hupd]
        refine ih (j + 2) _ _ _ ?_
        have h1 : f j % (s.W - 4) < s.W - 4 := Nat.mod_lt _ (by omega)
        have h2 : f (j + 1) % (s.H - 4) < s.H - 4 := Nat.mod_lt _ (by omega)
        simp only [inInterior]
        omega
      · rw [if_neg hupd]
        exact ih (j + 2) bx b_y bv hin

theorem respawnAgent_good (f : Nat → Nat) (s : CitySim) (j : Nat)
    (hW : 5 ≤ s.W) (hH : 5 ≤ s.H) (hseed : inInterior s.W s.H s.seedX s.seedY) :
    inInterior s.W s.H (respawnAgent f s j).1.x (respawnAgent f s j).1.y
    ∧ unitDir (respawnAgent f s j).1.dx (respawnAgent f s j).1.dy := by
  obtain ⟨hx, hy, hdx, hdy, hl⟩ := respawnAgent_parts f s j
  rw [hx, hy, hdx, hdy]
  exact ⟨respawnTries_pos_interior f s hW hH 15 j s.seedX s.seedY 0 hseed, unitDir_dirAt _⟩

theorem turnPhase_pos (f : Nat → Nat) (a0 : Agent) (j : Nat) :
    (turnPhase f a0 j).x = a0.x ∧ (turnPhase f a0 j).y = a0.y := by
  simp only [turnPhase]
  split_ifs <;> exact ⟨rfl, rfl⟩

theorem turnPhase_dir (f : Nat → Nat) (a0 : Agent) (j : Nat) (h : unitDir a0.dx a0.dy) :
    unitDir (turnPhase f a0 j).dx (turnPhase f a0 j).dy := by
  simp only [turnPhase]
  split_ifs <;>
    rcases h with ⟨h1, h2⟩ | ⟨h1, h2⟩ | ⟨h1, h2⟩ | ⟨h1, h2⟩ <;>
    simp [unitDir, h1, h2]

theorem moveAndBounce_interior (w h : Nat) (a : Agent) (hw : 3 ≤ w) (hh : 3 ≤ h) :
    inInterior w h (moveAndBounce w h a).x (moveAndBounce w h a).y := by
  have hw2 : (1 : Int) ≤ (w : Int) - 2 := by omega
  have hh2 : (1 : Int) ≤ (h : Int) - 2 := by omega
  by_cases hc : a.x + a.dx < 1 ∨ (w : Int) - 1 ≤ a.x + a.dx
      ∨ a.y + a.dy < 1 ∨ (h : Int) - 1 ≤ a.y + a.dy
  · simp only [moveAndBounce, if_pos hc, inInterior]
    exact ⟨(@constrain_bounds (a.x + a.dx) 1 ((w : Int) - 2) hw2).1,
      (@constrain_bounds (a.x + a.dx) 1 ((w : Int) - 2) hw2).2,
      (@constrain_bounds (a.y + a.dy) 1 ((h : Int) - 2) hh2).1,
      (@constrain_bounds (a.y + a.dy) 1 ((h : Int) - 2) hh2).2⟩
  · simp only [moveAndBounce, if_neg hc, inInterior]
    omega

theorem moveAndBounce_dir (w h : Nat) (a : Agent) (hdir : unitDir a.dx a.dy) :
    unitDir (moveAndBounce w h a).dx (moveAndBounce w h a).dy := by
  by_cases hc : a.x + a.dx < 1 ∨ (w : Int) - 1 ≤ a.x + a.dx
      ∨ a.y + a.dy < 1 ∨ (h : Int) - 1 ≤ a.y + a.dy
  · simp only [moveAndBounce, if_pos hc]
    rcases hdir with ⟨h1, h2⟩ | ⟨h1, h2⟩ | ⟨h1, h2⟩ | ⟨h1, h2⟩ <;> simp [unitDir, h1, h2]
  · simp only [moveAndBounce, if_neg hc]
    exact hdir

end CitySim

namespace CitySim

theorem GoodState_set (s : CitySim) (i : Nat) (a : Agent)
    (hpos : inInterior s.W s.H a.x a.y) (hdir : unitDir a.dx a.dy) (hgs : GoodState s) :
    GoodState { s with agents := s.agents.set i a } := by
  obtain ⟨hdims, hseed, hai, hau, hbz, hlen⟩ := hgs
  refine ⟨hdims, hseed, ?_, ?_, hbz, ?_⟩
  · intro b hb
    rcases List.mem_or_eq_of_mem_set hb with hm | rfl
    · exact hai b hm
    · exact hpos
  · intro b hb
    rcases List.mem_or_eq_of_mem_set hb with hm | rfl
    · exact hau b hm
    · exact hdir
  · show (s.agents.set i a).length ≤ MAX_AGENTS
    rw [List.length_set]
    exact hlen

theorem GoodState_lightsPhase (f : Nat → Nat) (s1 : CitySim) (a0 : Agent) (j : Nat)
    (hpos : inInterior s1.W s1.H a0.x a0.y) (hgs : GoodState s1) :
    GoodState (lightsPhase f s1 a0 j) := by
  unfold lightsPhase
  split_ifs
  · exact GoodState_addIntensity s1 a0.x a0.y 45 hpos hgs
  · exact hgs

theorem GoodState_branchPhase (f : Nat → Nat) (s2 : CitySim) (a1 : Agent) (j3 : Nat)
    (hpos : inInterior s2.W s2.H a1.x a1.y) (hdir : unitDir a1.dx a1.dy)
    (hgs : GoodState s2) :
    GoodState (branchPhase f s2 a1 j3).1 := by
  unfold branchPhase
  split_ifs <;>
    first
      | exact hgs
      | (refine GoodState_addAgent _ _ _ _ _ _ hpos ?_ hgs
         simp only [unitDir] at hdir ⊢
         omega)

theorem deathPhase_good (f : Nat → Nat) (s3 : CitySim) (a2 : Agent) (j4 : Nat)
    (hW : 5 ≤ s3.W) (hH : 5 ≤ s3.H) (hseed : inInterior s3.W s3.H s3.seedX s3.seedY)
    (hpos : inInterior s3.W s3.H a2.x a2.y) (hdir : unitDir a2.dx a2.dy) :
    inInterior s3.W s3.H (deathPhase f s3 a2 j4).1.x (deathPhase f s3 a2 j4).1.y
    ∧ unitDir (deathPhase f s3 a2 j4).1.dx (deathPhase f s3 a2 j4).1.dy := by
  unfold deathPhase
  split_ifs
  · exact respawnAgent_good f s3 (j4 + 1) hW hH hseed
  · exact ⟨hpos, hdir⟩
  · exact ⟨hpos, hdir⟩

theorem GoodState_agentUpdate (f : Nat → Nat) (s : CitySim) (i j : Nat) (hgs : GoodState s) :
    GoodState (agentUpdate f s i j).1 := by
  rcases hgi : s.agents[i]? with _ | a0
  · simp only [agentUpdate, hgi]
    exact hgs
  · have ha0mem : a0 ∈ s.agents := by
      obtain ⟨hlt, heq⟩ := List.getElem?_eq_some.mp hgi
      exact heq ▸ List.getElem_mem _
    have hpos0 := hgs.2.2.1 a0 ha0mem
    have hdir0 := hgs.2.2.2.1 a0 ha0mem
    simp only [agentUpdate, hgi]
    split_ifs with h0
    · exact hgs
    · have hg1 : GoodState (addIntensity s a0.x a0.y 35) :=
        GoodState_addIntensity s a0.x a0.y 35 hpos0 hgs
      have hg2 : GoodState (lightsPhase f (addIntensity s a0.x a0.y 35) a0 j) :=
        GoodState_lightsPhase f _ a0 j hpos0 hg1
      obtain ⟨lW, lH, lsx, lsy, lst, lag⟩ :=
        lightsPhase_frame f (addIntensity s a0.x a0.y 35) a0 j
      have ha1x := (turnPhase_pos f a0 (j + 1)).1
      have ha1y := (turnPhase_pos f a0 (j + 1)).2
      have ha1dir := turnPhase_dir f a0 (j + 1) hdir0
      have hpos1 : inInterior (lightsPhase f (addIntensity s a0.x a0.y 35) a0 j).W
          (lightsPhase f (addIntensity s a0.x a0.y 35) a0 j).H
          (turnPhase f a0 (j + 1)).x (turnPhase f a0 (j + 1)).y := by
        rw [lW, lH, addIntensity_W, addIntensity_H, ha1x, ha1y]
        exact hpos0
      have hg3 : GoodState (branchPhase f (lightsPhase f (addIntensity s a0.x a0.y 35) a0 j)
          (turnPhase f a0 (j + 1)) (j + 2)).1 :=
        GoodState_branchPhase f _ _ _ hpos1 ha1dir hg2
      obtain ⟨bW, bH, bsx, bsy, bst, bgr⟩ :=
        branchPhase_frame f (lightsPhase f (addIntensity s a0.x a0.y 35) a0 j)
          (turnPhase f a0 (j + 1)) (j + 2)
      have hbW : (branchPhase f (lightsPhase f (addIntensity s a0.x a0.y 35) a0 j)
          (turnPhase f a0 (j + 1)) (j + 2)).1.W = s.W := by
        rw [bW, lW, addIntensity_W]
      have hbH : (branchPhase f (lightsPhase f (addIntensity s a0.x a0.y 35) a0 j)
          (turnPhase f a0 (j + 1)) (j + 2)).1.H = s.H := by
        rw [bH, lH, addIntensity_H]
      have hbsx : (branchPhase f (lightsPhase f (addIntensity s a0.x a0.y 35) a0 j)
          (turnPhase f a0 (j + 1)) (j + 2)).1.seedX = s.seedX := by
        rw [bsx, lsx, addIntensity_seedX]
      have hbsy : (branchPhase f (lightsPhase f (addIntensity s a0.x a0.y 35) a0 j)
          (turnPhase f a0 (j + 1)) (j + 2)).1.seedY = s.seedY := by
        rw [bsy, lsy, addIntensity_seedY]
      have hdims := hg3.1
      have hseed3 := hg3.2.1
      have h5W : 5 ≤ s.W := by
        have := hdims.1
        rw [hbW] at this
        exact this
      have h5H : 5 ≤ s.H := by
        have := hdims.2.1
        rw [hbH] at this
        exact this
      have hmbpos : inInterior s.W s.H (moveAndBounce s.W s.H (turnPhase f a0 (j + 1))).x
          (moveAndBounce s.W s.H (turnPhase f a0 (j + 1))).y :=
        moveAndBounce_interior s.W s.H _ (by omega) (by omega)
      have hmbdir : unitDir (moveAndBounce s.W s.H (turnPhase f a0 (j + 1))).dx
          (moveAndBounce s.W s.H (turnPhase f a0 (j + 1))).dy :=
        moveAndBounce_dir s.W s.H _ ha1dir
      have hdp := deathPhase_good f
        (branchPhase f (lightsPhase f (addIntensity s a0.x a0.y 35) a0 j)
          (turnPhase f a0 (j + 1)) (j + 2)).1
        (moveAndBounce s.W s.H (turnPhase f a0 (j + 1)))
        (branchPhase f (lightsPhase f (addIntensity s a0.x a0.y 35) a0 j)
          (turnPhase f a0 (j + 1)) (j + 2)).2
        (by rw [hbW]; exact h5W) (by rw [hbH]; exact h5H) hseed3
        (by rw [hbW, hbH]; exact hmbpos) hmbdir
      refine GoodState_set _ i _ ?_ hdp.2 hg3
      rw [hbW, hbH]
      rw [hbW, hbH] at hdp
      exact hdp.1

end CitySim


namespace CitySim

theorem GoodState_agentLoop (f : Nat → Nat) (fuel : Nat) :
    ∀ i s j, GoodState s → GoodState (agentLoop f fuel i s j).1 := by
  induction fuel with
  | zero => intro i s j hgs; exact hgs
  | succ fuel ih =>
      intro i s j hgs
      simp only [agentLoop]
      split_ifs with h
      · exact ih (i + 1) _ _ (GoodState_agentUpdate f s i j hgs)
      · exact hgs

theorem GoodState_runAgents (f : Nat → Nat) (s : CitySim) (j : Nat) (hgs : GoodState s) :
    GoodState (runAgents f s j).1 :=
  GoodState_agentLoop f (s.agents.length + 61) 0 s j hgs

theorem GoodState_brightSpawns (f : Nat → Nat) (nx ny : Int) (n : Nat) :
    ∀ s j, GoodState s → GoodState (brightSpawns f nx ny n s j).1 := by
  induction n with
  | zero => intro s j hgs; exact hgs
  | succ n ih =>
      intro s j hgs
      simp only [brightSpawns]
      split_ifs with h
      · refine ih _ _ ?_
        have h5W : (2 : Int) ≤ (s.W : Int) - 3 := by have := hgs.1.1; omega
        have h5H : (2 : Int) ≤ (s.H : Int) - 3 := by have := hgs.1.2.1; omega
        refine GoodState_addAgent _ _ _ _ _ _ ?_ (unitDir_dirAt _) hgs
        have hbx := @constrain_bounds (nx + ((f j % 21 : Nat) : Int) - 10) 2
          ((s.W : Int) - 3) h5W
        have hby := @constrain_bounds (ny + ((f (j + 1) % 21 : Nat) : Int) - 10) 2
          ((s.H : Int) - 3) h5H
        simp only [inInterior]
        omega
      · exact hgs

theorem GoodState_placeBrightNode (f : Nat → Nat) (s : CitySim) (j : Nat)
    (hgs : GoodState s) : GoodState (placeBrightNode f s j).1 := by
  simp only [placeBrightNode]
  exact GoodState_brightSpawns f _ _ 5 _ _
    (GoodState_bloom _ _ _ _ _ (GoodState_bloom _ _ _ _ _ hgs))

theorem GoodState_clock (t : CitySim) (st nb : Nat) (hgs : GoodState t) :
    GoodState { t with steps := st, nextBrightNodeStep := nb } := by
  obtain ⟨a, b, c, d, e, g⟩ := hgs
  exact ⟨a, b, c, d, e, g⟩

theorem GoodState_nbs (t : CitySim) (nb : Nat) (hgs : GoodState t) :
    GoodState { t with nextBrightNodeStep := nb } := by
  obtain ⟨a, b, c, d, e, g⟩ := hgs
  exact ⟨a, b, c, d, e, g⟩

theorem GoodState_stepTick (s : CitySim) (hgs : GoodState s) : GoodState (stepTick s) := by
  obtain ⟨a, b, c, d, e, g⟩ := hgs
  exact ⟨a, b, c, d, e, g⟩

theorem GoodState_brightPhase (f : Nat → Nat) (s : CitySim) (j : Nat) (hgs : GoodState s) :
    GoodState (brightPhase f s j).1 := by
  simp only [brightPhase]
  split_ifs with h
  · exact GoodState_nbs _ _ (GoodState_placeBrightNode f s j hgs)
  · exact hgs

theorem GoodState_decayPhase (s : CitySim) (hgs : GoodState s) : GoodState (decayPhase s) := by
  unfold decayPhase
  split_ifs
  · exact GoodState_decay s 1 hgs
  · exact hgs

theorem GoodState_maintLoop (f : Nat → Nat) (fuel : Nat) :
    ∀ i active s j, GoodState s → GoodState (maintLoop f fuel i active s j).1 := by
  induction fuel with
  | zero => intro i active s j hgs; exact hgs
  | succ fuel ih =>
      intro i active s j hgs
      simp only [maintLoop]
      split_ifs with h
      · split
        · exact hgs
        · split_ifs with hl
          · refine ih _ _ _ _ ?_
            have hd := respawnAgent_good f s j hgs.1.1 hgs.1.2.1 hgs.2.1
            exact GoodState_set s i _ hd.1 hd.2 hgs
          · exact ih _ _ _ _ hgs
      · exact hgs

theorem GoodState_maintain (f : Nat → Nat) (s : CitySim) (j : Nat) (hgs : GoodState s) :
    GoodState (maintain f s j).1 := by
  simp only [maintain]
  split_ifs with h
  · exact GoodState_maintLoop f _ 0 _ s j hgs
  · exact hgs

theorem GoodState_stepPre (f : Nat → Nat) (s : CitySim) (j : Nat) (hgs : GoodState s) :
    GoodState (stepPre f s j).1 := by
  simp only [stepPre]
  exact GoodState_decayPhase _ (GoodState_runAgents f _ _
    (GoodState_brightPhase f _ _ (GoodState_stepTick s hgs)))

theorem GoodState_step (f : Nat → Nat) (s : CitySim) (j : Nat) (hgs : GoodState s) :
    GoodState (step f s j).1 := by
  simp only [step]
  exact GoodState_maintain f _ _ (GoodState_stepPre f s j hgs)

theorem GoodState_runSteps (f : Nat → Nat) (n : Nat) :
    ∀ s j, GoodState s → GoodState (runSteps f n s j).1 := by
  induction n with
  | zero => intro s j hgs; exact hgs
  | succ n ih =>
      intro s j hgs
      simp only [runSteps]
      exact ih _ _ (GoodState_step f s j hgs)

theorem GoodState_seed4 (t : CitySim) (sx sy : Int) (hpos : inInterior t.W t.H sx sy)
    (hgs : GoodState t) :
    GoodState (addAgent (addAgent (addAgent (addAgent t sx sy 1 0 255) sx sy 0 1 255)
      sx sy (-1) 0 255) sx sy 0 (-1) 255) := by
  obtain ⟨e1, e2, _⟩ := addAgent_frame t sx sy 1 0 255
  obtain ⟨e3, e4, _⟩ := addAgent_frame (addAgent t sx sy 1 0 255) sx sy 0 1 255
  obtain ⟨e5, e6, _⟩ := addAgent_frame (addAgent (addAgent t sx sy 1 0 255) sx sy 0 1 255)
    sx sy (-1) 0 255
  refine GoodState_addAgent _ _ _ _ _ _ ?_ (by decide) ?_
  · rw [e5, e6, e3, e4, e1, e2]
    exact hpos
  refine GoodState_addAgent _ _ _ _ _ _ ?_ (by decide) ?_
  · rw [e3, e4, e1, e2]
    exact hpos
  refine GoodState_addAgent _ _ _ _ _ _ ?_ (by decide) ?_
  · rw [e1, e2]
    exact hpos
  exact GoodState_addAgent _ _ _ _ _ _ hpos (by decide) hgs

theorem GoodState_reset (f : Nat → Nat) (s : CitySim) (j : Nat)
    (h5W : 5 ≤ s.W) (h5H : 5 ≤ s.H) (hWH : s.W * s.H ≤ 65536) :
    GoodState (reset f s j).1 := by
  simp only [reset]
  have hseed : inInterior s.W s.H ((s.W / 2 : Nat) : Int) ((s.H / 2 : Nat) : Int) := by
    simp only [inInterior]
    omega
  refine GoodState_clock _ _ _ (GoodState_bloom _ _ _ _ _ (GoodState_seed4 _ _ _ ?_ ?_))
  · exact hseed
  · refine ⟨⟨h5W, h5H, hWH⟩, hseed, ?_, ?_, ?_, ?_⟩
    · intro a ha; cases ha
    · intro a ha; cases ha
    · intro x y _ _ _; rfl
    · exact Nat.zero_le _

end CitySim

namespace CitySim

/-- C2: on a grid with both dimensions at least 5 and an exact uint16_t flat
index (true of the deployed 240 × 135), construction and any number of
step() calls leave every cell of the outermost one-cell border at 0 and
keep every occupied agent's position within [1, W-2] × [1, H-2]. -/
theorem claim_C2_interior_containment (f : Nat → Nat) (w h n j : Nat)
    (h5W : 5 ≤ w) (h5H : 5 ≤ h) (hWH : w * h ≤ 65536) :
    BorderZero (mkCitySim f w h j).1 ∧ AgentsInterior (mkCitySim f w h j).1
    ∧ BorderZero (runSteps f n (mkCitySim f w h j).1 (mkCitySim f w h j).2).1
    ∧ AgentsInterior (runSteps f n (mkCitySim f w h j).1 (mkCitySim f w h j).2).1 := by
  have hg : GoodState (mkCitySim f w h j).1 := GoodState_reset f (initSim w h) j h5W h5H hWH
  have hg2 := GoodState_runSteps f n (mkCitySim f w h j).1 (mkCitySim f w h j).2 hg
  exact ⟨hg.2.2.2.2.1, hg.2.2.1, hg2.2.2.2.2.1, hg2.2.2.1⟩

theorem claim_C2_witness :
    BorderZero (mkCitySim (fun _ => 0) 5 5 0).1
    ∧ AgentsInterior (mkCitySim (fun _ => 0) 5 5 0).1
    ∧ BorderZero (runSteps (fun _ => 0) 1 (mkCitySim (fun _ => 0) 5 5 0).1
        (mkCitySim (fun _ => 0) 5 5 0).2).1
    ∧ AgentsInterior (runSteps (fun _ => 0) 1 (mkCitySim (fun _ => 0) 5 5 0).1
        (mkCitySim (fun _ => 0) 5 5 0).2).1 :=
  claim_C2_interior_containment (fun _ => 0) 5 5 1 0 (by decide) (by decide) (by decide)

/-- C9: after construction and after any number of step() calls, every
occupied agent's direction is one of the four axis-aligned unit vectors
(1,0), (-1,0), (0,1), (0,-1) — never diagonal and never (0,0). -/
theorem claim_C9_unit_directions (f : Nat → Nat) (w h n j : Nat)
    (h5W : 5 ≤ w) (h5H : 5 ≤ h) (hWH : w * h ≤ 65536) :
    AgentsUnitDir (mkCitySim f w h j).1
    ∧ AgentsUnitDir (runSteps f n (mkCitySim f w h j).1 (mkCitySim f w h j).2).1 := by
  have hg : GoodState (mkCitySim f w h j).1 := GoodState_reset f (initSim w h) j h5W h5H hWH
  have hg2 := GoodState_runSteps f n (mkCitySim f w h j).1 (mkCitySim f w h j).2 hg
  exact ⟨hg.2.2.2.1, hg2.2.2.2.1⟩

theorem claim_C9_witness :
    AgentsUnitDir (mkCitySim (fun _ => 0) 5 5 0).1
    ∧ AgentsUnitDir (runSteps (fun _ => 0) 1 (mkCitySim (fun _ => 0) 5 5 0).1
        (mkCitySim (fun _ => 0) 5 5 0).2).1 :=
  claim_C9_unit_directions (fun _ => 0) 5 5 1 0 (by decide) (by decide) (by decide)

/-- C6: addAgent appends the given agent and grows the occupied count by one
exactly when the count is below MAX_AGENTS = 60, is a complete no-op at
capacity, and consequently the occupied count never exceeds 60 after
construction and any number of step() calls. -/
theorem claim_C6_pool_capacity (s : CitySim) (x y dx dy : Int) (life : Nat)
    (f : Nat → Nat) (w h n j : Nat)
    (h5W : 5 ≤ w) (h5H : 5 ≤ h) (hWH : w * h ≤ 65536) :
    (s.agents.length < MAX_AGENTS →
      (addAgent s x y dx dy life).agents = s.agents ++ [⟨x, y, dx, dy, life⟩]
      ∧ (addAgent s x y dx dy life).agents.length = s.agents.length + 1)
    ∧ (MAX_AGENTS ≤ s.agents.length → addAgent s x y dx dy life = s)
    ∧ MAX_AGENTS = 60
    ∧ (mkCitySim f w h j).1.agents.length ≤ 60
    ∧ (runSteps f n (mkCitySim f w h j).1 (mkCitySim f w h j).2).1.agents.length ≤ 60 := by
  have hg : GoodState (mkCitySim f w h j).1 := GoodState_reset f (initSim w h) j h5W h5H hWH
  have hg2 := GoodState_runSteps f n (mkCitySim f w h j).1 (mkCitySim f w h j).2 hg
  refine ⟨?_, ?_, rfl, hg.2.2.2.2.2, hg2.2.2.2.2.2⟩
  · intro hc
    have hnc : ¬ MAX_AGENTS ≤ s.agents.length := by omega
    unfold addAgent
    rw [if_neg hnc]
    exact ⟨rfl, by simp⟩
  · intro hc
    unfold addAgent
    rw [if_pos hc]

theorem claim_C6_witness :
    ((initSim 5 5).agents.length < MAX_AGENTS →
      (addAgent (initSim 5 5) 1 1 1 0 7).agents = (initSim 5 5).agents ++ [⟨1, 1, 1, 0, 7⟩]
      ∧ (addAgent (initSim 5 5) 1 1 1 0 7).agents.length = (initSim 5 5).agents.length + 1)
    ∧ (MAX_AGENTS ≤ (initSim 5 5).agents.length → addAgent (initSim 5 5) 1 1 1 0 7 = initSim 5 5)
    ∧ MAX_AGENTS = 60
    ∧ (mkCitySim (fun _ => 0) 5 5 0).1.agents.length ≤ 60
    ∧ (runSteps (fun _ => 0) 1 (mkCitySim (fun _ => 0) 5 5 0).1
        (mkCitySim (fun _ => 0) 5 5 0).2).1.agents.length ≤ 60 :=
  claim_C6_pool_capacity (initSim 5 5) 1 1 1 0 7 (fun _ => 0) 5 5 1 0
    (by decide) (by decide) (by decide)

end CitySim
